import Mathlib

/-!
# protoc-gen-go-grain: descriptor extraction, naming, generated dispatch code

A shallow embedding of

* `protobuf/protoc-gen-go-grain/generate.go` (`generateService`, `toCamel`,
  `generateErrorReasons`, `generateContent`),
* `protobuf/protoc-gen-go-grain/testdata/reenter/hello_grain.pb.go`
  (`HelloGrainClient`, `HelloActor`),
* `examples/cluster-grain/shared/protos_grain.pb.go` (`HelloGrainClient`, `HelloActor`).

Go strings are modelled as `String` where only equality matters and as `List Char`
where the code inspects characters; Go byte slices are `List Nat`; a Go pointer that
may be nil is an `Option`; a Go `error` that may be nil is an `Option`.
-/

namespace GrainGen

/-! ## Part 1. `generateService` -/

/-- Go `protogen.GoIdent`. -/
structure GoIdent where
  GoName : String
  GoImportPath : String
  deriving DecidableEq, Repr

/-- Modelled from the spec: the message `options.MethodOptions` (package
`protoc-gen-go-grain/options`, not among the sources). It carries the dispatch mode
(reentrant or blocking) and the flag that makes a method eligible for a future call.
The Go zero value `&options.MethodOptions{}` has both flags off. -/
structure MethodOptions where
  Reenterable : Bool
  Future : Bool
  deriving DecidableEq, Repr

/-- The zero value `&options.MethodOptions{}`. -/
def MethodOptions.zero : MethodOptions := { Reenterable := false, Future := false }

/-- The message returned by `method.Desc.Options()` (a `*descriptorpb.MethodOptions`),
as far as `generateService` reads it: the extension field `options.E_MethodOptions`,
`none` when that field is unpopulated. -/
structure DescriptorOptions where
  GrainMethodOptions : Option MethodOptions
  deriving DecidableEq, Repr

/-- Go `*protogen.Method`, as far as `generateService` reads it. `Options` is
`method.Desc.Options()`; `none` is the nil `*descriptorpb.MethodOptions` of a method
declared without any option. -/
structure Method where
  GoName : String
  Input : GoIdent
  Output : GoIdent
  IsStreamingClient : Bool
  IsStreamingServer : Bool
  Options : Option DescriptorOptions
  deriving DecidableEq, Repr

/-- Go `*protogen.Service`, as far as `generateService` reads it. `Deprecated` is
`service.Desc.Options().(*descriptorpb.ServiceOptions).GetDeprecated()`. -/
structure Service where
  GoName : String
  Deprecated : Bool
  Methods : List Method
  deriving DecidableEq, Repr

/-- The dynamic value held by the `any` that `proto.GetExtension` returns. -/
inductive ExtensionValue where
  /-- Dynamic type `*options.MethodOptions`; `none` is the nil pointer of that type. -/
  | methodOptions (p : Option MethodOptions)
  /-- The nil interface, or a value of any other dynamic type. -/
  | foreign
  deriving DecidableEq, Repr

/-- Library function `proto.GetExtension(m, options.E_MethodOptions)` of
google.golang.org/protobuf. Its documentation: "If the field is unpopulated, it
returns the default value for scalars and an immutable, empty value for lists or
messages"; the value always has the Go type of the extension, here
`*options.MethodOptions`, and for an unpopulated message field (or a nil `m`) it is the
nil pointer of that type. -/
def GetExtension (m : Option DescriptorOptions) : ExtensionValue :=
  match m with
  | none => .methodOptions none
  | some o => .methodOptions o.GrainMethodOptions

/-- Go type assertion `v.(*options.MethodOptions)` in its two-result form:
`none` is `ok = false`, `some p` is `ok = true` with the pointer `p`. -/
def assertMethodOptions : ExtensionValue → Option (Option MethodOptions)
  | .methodOptions p => some p
  | .foreign => none

/-- Go `methodDesc` (the record handed to the service template). -/
structure methodDesc where
  Name : String
  Input : String
  Output : String
  Index : Nat
  Options : MethodOptions
  deriving DecidableEq, Repr

/-- Go `serviceDesc`. -/
structure serviceDesc where
  Name : String
  Methods : List methodDesc
  deriving DecidableEq, Repr

/-- The operations of `*protogen.GeneratedFile` that `generateService` calls, over
an abstract file state `G`. `QualifiedGoIdent` returns the identifier text and the
file with the import registered; `P` appends one line built from its arguments. -/
structure GeneratedFile (G : Type) where
  QualifiedGoIdent : G → GoIdent → String × G
  P : G → List String → G

/-- Go constant `deprecationComment`. -/
def deprecationComment : String := "// Deprecated: Do not use."

/-- The `for i, method := range service.Methods` loop of `generateService`, entered
at position `i` with the remaining methods, the file `g` and `sd.Methods = acc`. -/
def methodLoop {G : Type} (ops : GeneratedFile G) :
    G → Nat → List Method → List methodDesc → List methodDesc × G
  | g, _, [], acc => (acc, g)
  | g, i, method :: rest, acc =>
    if method.IsStreamingClient || method.IsStreamingServer then
      methodLoop ops g (i + 1) rest acc
    else
      match assertMethodOptions (GetExtension method.Options) with
      | none => methodLoop ops g (i + 1) rest acc
      | some p =>
        let methodOptions := match p with
          | none => MethodOptions.zero
          | some o => o
        let input := ops.QualifiedGoIdent g method.Input
        let output := ops.QualifiedGoIdent input.2 method.Output
        let md : methodDesc :=
          { Name := method.GoName, Input := input.1, Output := output.1,
            Index := i, Options := methodOptions }
        methodLoop ops output.2 (i + 1) rest (acc ++ [md])

/-- The `serviceDesc` that `generateService` has built when its loop ends. -/
def buildServiceDesc {G : Type} (ops : GeneratedFile G) (service : Service) (g : G) :
    serviceDesc × G :=
  let r := methodLoop ops g 0 service.Methods []
  ({ Name := service.GoName, Methods := r.1 }, r.2)

/-- Go `generateService`. `execute` is the template rendering `sd.execute()`
(file `template.go`, not among the sources). The result is the generated file. -/
def generateService {G : Type} (ops : GeneratedFile G) (execute : serviceDesc → String)
    (service : Service) (g : G) : G :=
  let g1 := if service.Deprecated then ops.P (ops.P g ["//"]) [deprecationComment] else g
  let r := buildServiceDesc ops service g1
  if r.1.Methods.length ≠ 0 then ops.P r.2 [execute r.1] else r.2

/-- The method definitions `sd.Methods` that `generateService` derives from the method
sequence `ms`, the generated file being `g` when the loop starts. -/
def derivedMethods {G : Type} (ops : GeneratedFile G) (g : G) (ms : List Method) :
    List methodDesc :=
  (methodLoop ops g 0 ms []).1

/-- A concrete generated file for evaluation: the state is the list of lines printed
so far, identifiers are qualified by their import path. -/
def sampleFile : GeneratedFile (List String) where
  QualifiedGoIdent := fun g id => (id.GoImportPath ++ "." ++ id.GoName, g)
  P := fun g args => g ++ [String.join args]

/-- The service used to evaluate `generateService`: a client-streaming method, then
`SayHello` annotated as reentrant, then `Dowork` without any option. -/
def sampleMethods : List Method :=
  [ { GoName := "Watch", Input := ⟨"WatchRequest", "hello"⟩, Output := ⟨"WatchEvent", "hello"⟩,
      IsStreamingClient := true, IsStreamingServer := false, Options := none },
    { GoName := "SayHello", Input := ⟨"SayHelloRequest", "hello"⟩,
      Output := ⟨"SayHelloResponse", "hello"⟩,
      IsStreamingClient := false, IsStreamingServer := false,
      Options := some ⟨some ⟨true, false⟩⟩ },
    { GoName := "Dowork", Input := ⟨"DoworkRequest", "hello"⟩,
      Output := ⟨"DoworkResponse", "hello"⟩,
      IsStreamingClient := false, IsStreamingServer := false, Options := none } ]

/-! ## Part 2. `toCamel` -/

/-- Go `strings.ToUpper`, on ASCII text. -/
def ToUpper (s : List Char) : List Char := s.map Char.toUpper

/-- Go `strings.ToLower`, on ASCII text. -/
def ToLower (s : List Char) : List Char := s.map Char.toLower

/-- Go `strings.Contains(s, "_")`. -/
def ContainsUnderscore (s : List Char) : Bool := s.any (fun c => c == '_')

/-- Go `strings.Split(s, "_")`: the pieces of `s` between the underscores, empty pieces
included; a string without underscore is its own single piece. -/
def Split : List Char → List (List Char)
  | [] => [[]]
  | c :: rest =>
    if c = '_' then [] :: Split rest
    else
      match Split rest with
      | [] => [[c]]
      | seg :: segs => (c :: seg) :: segs

/-- Go `strings.Join(slice, "")`. -/
def Join : List (List Char) → List Char
  | [] => []
  | seg :: segs => seg ++ Join segs

/-- Rune class of golang.org/x/text/cases: the rune has the Unicode property `Cased`.
In the ASCII range these are the letters. -/
def isCased (c : Char) : Bool := c.isAlpha

/-- Rune class of golang.org/x/text/cases: word-break property MidLetter, MidNumLet or
Single_Quote. In the ASCII range these are the apostrophe, the full stop and the colon. -/
def isMid (c : Char) : Bool := c.toNat = 39 || c.toNat = 46 || c.toNat = 58

/-- Rune class of golang.org/x/text/cases: the rune ends a word, that is, its word-break
property is none of ALetter, Numeric, ExtendNumLet (letters, digits and the underscore
in the ASCII range) nor a "mid" one. Runes outside the ASCII range are outside this
model. -/
def isBreak (c : Char) : Bool := !(c.isAlphanum || c == '_') && !isMid c

/-- The loop of `titleCaser.Transform` (golang.org/x/text/cases) for the undetermined
language, which is what `language.AmericanEnglish` selects: the first cased rune of a
word is mapped to title case, the cased runes after it to lower case, or copied when
the caser was built with `cases.NoLower`; other runes are copied. `isMidWord` is the
flag of the same name: set by a cased rune, cleared by a rune that ends a word and
between two consecutive "mid" runes. Each call of `Caser.String` starts with the flag
cleared. -/
def titleTransform (noLower : Bool) : Bool → List Char → List Char
  | _, [] => []
  | isMidWord, c :: rest =>
    let out :=
      if isCased c then
        if !isMidWord then c.toUpper else if noLower then c else c.toLower
      else c
    let mid1 := if isCased c then true else if isBreak c then false else isMidWord
    let mid2 :=
      match rest with
      | [] => mid1
      | d :: _ => if isMid c && isMid d then false else mid1
    out :: titleTransform noLower mid2 rest

/-- Go `noLowerCaser.String`, with
`noLowerCaser = cases.Title(language.AmericanEnglish, cases.NoLower)`. -/
def noLowerCaser (s : List Char) : List Char := titleTransform true false s

/-- Go `caser.String`, with `caser = cases.Title(language.AmericanEnglish)`. -/
def caser (s : List Char) : List Char := titleTransform false false s

/-- Go `toCamel`. -/
def toCamel (s : List Char) : List Char :=
  if !ContainsUnderscore s then
    let s1 := if s = ToUpper s then ToLower s else s
    noLowerCaser s1
  else
    Join ((Split s).map caser)

/-- The first letter of `s` upper-cased, every other character kept. -/
def capitalizeFirstLetter : List Char → List Char
  | [] => []
  | c :: rest => if c.isAlpha then c.toUpper :: rest else c :: capitalizeFirstLetter rest

/-- No letter of `s` is lower-case: `s` is entirely upper-case. -/
def isAllUpper (s : List Char) : Bool := s.all (fun c => !c.isLower)

/-- Reference definition of the naming normalizer, following the specification's
words. Without underscore: an entirely upper-case identifier is lower-cased and then
its first letter is capitalised; any other identifier only has its first letter
capitalised. With underscores: every underscore-separated segment is lower-cased except
for its first letter, which is upper-cased, and the segments are concatenated. -/
def toCamelRef (s : List Char) : List Char :=
  if '_' ∈ s then
    ((s.splitOn '_').map (fun seg => capitalizeFirstLetter (seg.map Char.toLower))).flatten
  else if isAllUpper s then capitalizeFirstLetter (s.map Char.toLower)
  else capitalizeFirstLetter s

/-! ## Part 3. Generated client and actor -/

/-- Go `[]byte`: a list of byte values. -/
abbrev Bytes := List Nat

/-- How a Go call ends: it returns, or it panics (nil dereference, call of a nil
function value). -/
inductive Run (α : Type) where
  | done (a : α)
  | panic (reason : String)
  deriving DecidableEq, Repr

/-- Go `*cluster.GrainRequest`, the request envelope. `MethodIndex` is an `int32`. -/
structure GrainRequest where
  MethodIndex : Int
  MessageData : Bytes
  deriving DecidableEq, Repr

/-- Go `cluster.GrainContext` as built by `cluster.NewGrainContext(ctx, identity, cluster)`:
the actor context of the grain together with its identity. -/
structure GrainContext where
  Identity : String
  deriving DecidableEq, Repr

/-- Go `*cluster.ClusterInit`, as far as `Receive` reads it. -/
structure ClusterInit where
  Identity : String
  deriving DecidableEq, Repr

/-- The dynamic value of `ctx.Message()`, by the cases of the type switch in `Receive`.
A case with a pointer type also matches the nil pointer of that type (`none`). -/
inductive Message where
  | Started
  | ClusterInit (p : Option ClusterInit)
  | ReceiveTimeout
  | Stopped
  /-- A value implementing `actor.AutoReceiveMessage`, other than the above. -/
  | AutoReceiveMessage
  /-- A value implementing `actor.SystemMessage`, other than the above. -/
  | SystemMessage
  | GrainRequest (p : Option GrainRequest)
  /-- Any other message: the `default` case. -/
  | other
  deriving DecidableEq, Repr

/-- The protobuf codec of one message type `M` (library google.golang.org/protobuf and
the generated `String` method), `E` being the type of non-nil errors. `Marshal r` is
`proto.Marshal(r)` for a pointer `r`; `Unmarshal b` is the message that
`proto.Unmarshal(b, req)` leaves in a fresh `req` together with the error it returns;
`String` is `req.String()`. -/
structure Codec (E M : Type) where
  Marshal : Option M → Bytes × Option E
  Unmarshal : Bytes → M × Option E
  String : M → String

namespace Reenter

/-! ### `testdata/reenter/hello_grain.pb.go` (generator v0.5.0) -/

/-- Modelled from the spec: the enumeration `cluster.ErrorReason` (package `cluster`,
not among the sources). The generated code names one value, `INVALID_ARGUMENT`. -/
inductive ErrorReason where
  | INVALID_ARGUMENT
  | other (code : Int)
  deriving DecidableEq, Repr

/-- Modelled from the spec: the wire error response `cluster.GrainErrorResponse` of the
newer bridge, "a reason code plus a string-keyed metadata mapping", with a message. -/
structure GrainErrorResponse where
  Reason : ErrorReason
  Message : String
  Metadata : List (String × String)
  deriving DecidableEq, Repr

/-- Modelled from the spec: `cluster.NewGrainErrorResponse(reason, message)`, the
structured error with that reason and message and no metadata yet. -/
def NewGrainErrorResponse (reason : ErrorReason) (message : String) : GrainErrorResponse :=
  { Reason := reason, Message := message, Metadata := [] }

/-- Modelled from the spec: `(*GrainErrorResponse).WithMetadata(data)`, the same response
carrying the entries of `data` as metadata (an entry of `data` replaces one with the
same key). -/
def GrainErrorResponse.WithMetadata (m : GrainErrorResponse) (data : List (String × String)) :
    GrainErrorResponse :=
  { m with Metadata := m.Metadata.filter (fun kv => !(data.any (fun d => d.1 == kv.1))) ++ data }

/-- A non-nil Go `error`. -/
inductive GoError where
  /-- A `*cluster.GrainErrorResponse` used as an error; `none` is the nil pointer. -/
  | grain (resp : Option GrainErrorResponse)
  /-- An error of another type; `text` is what its `Error()` returns. -/
  | other (text : String)
  /-- The error `fmt.Errorf(pre + ": %w", cause)`. -/
  | wrap (pre : String) (cause : GoError)
  deriving DecidableEq, Repr

/-- The functions of package `cluster` (not among the sources) that the generated code
calls and whose result it only passes on. `FromError` is `cluster.FromError`, the error
bridge; `ErrorText` is the method `(*GrainErrorResponse).Error`. -/
structure ClusterPkg where
  FromError : Option GoError → Option GrainErrorResponse
  ErrorText : Option GrainErrorResponse → String

/-- Go `err.Error()`. -/
def GoError.Error (cl : ClusterPkg) : GoError → String
  | .grain resp => cl.ErrorText resp
  | .other text => text
  | .wrap pre cause => pre ++ ": " ++ GoError.Error cl cause

/-- The dynamic value of an `any` that travels as a response: what `cluster.Request`
returns and what `ctx.Respond` is given. A pointer may be nil (`none`). -/
inductive Reply (SayHelloResponse DoworkResponse : Type) where
  /-- The nil interface. -/
  | nilInterface
  | SayHelloResponse (p : Option SayHelloResponse)
  | DoworkResponse (p : Option DoworkResponse)
  | GrainErrorResponse (p : Option GrainErrorResponse)
  /-- A value of any other type; `typeName` is what `%T` prints for it. -/
  | other (typeName : String)
  deriving DecidableEq, Repr

/-- What the verb `%T` of `fmt` prints for a response. -/
def Reply.typeName {R0 R1 : Type} : Reply R0 R1 → String
  | .nilInterface => "<nil>"
  | .SayHelloResponse _ => "*hello.SayHelloResponse"
  | .DoworkResponse _ => "*hello.DoworkResponse"
  | .GrainErrorResponse _ => "*cluster.GrainErrorResponse"
  | .other typeName => typeName

/-- Go `*cluster.Cluster`, as far as the client stubs call it:
`Request(identity, kind, message)` returns a response and an error. -/
structure Cluster (R0 R1 : Type) where
  Request : String → String → GrainRequest → Reply R0 R1 × Option GoError

/-- Go `HelloGrainClient`. -/
structure HelloGrainClient (R0 R1 : Type) where
  Identity : String
  cluster : Cluster R0 R1

/-- The `switch msg := resp.(type)` that ends `(*HelloGrainClient).SayHello`: the pair
`(response, error)` returned for the response `resp` of a successful request. -/
def sayHelloResult {R0 R1 : Type} (resp : Reply R0 R1) : Run (Option R0 × Option GoError) :=
  match resp with
  | .SayHelloResponse msg => .done (msg, none)
  | .GrainErrorResponse msg =>
    match msg with
    | none => .done (none, none)
    | some e => .done (none, some (GoError.grain (some e)))
  | _ => .done (none, some (GoError.other ("unknown response type " ++ resp.typeName)))

/-- Go `(*HelloGrainClient).SayHello`: the pair `(response, error)` it returns. -/
def HelloGrainClient.SayHello {Q0 R0 R1 : Type} (codec : Codec GoError Q0)
    (g : HelloGrainClient R0 R1) (r : Option Q0) : Run (Option R0 × Option GoError) :=
  match codec.Marshal r with
  | (_, some err) => .done (none, some err)
  | (bytes, none) =>
    let reqMsg : GrainRequest := { MethodIndex := 0, MessageData := bytes }
    match g.cluster.Request g.Identity "Hello" reqMsg with
    | (_, some err) => .done (none, some (GoError.wrap "error request" err))
    | (resp, none) => sayHelloResult resp

/-- The `switch msg := resp.(type)` that ends `(*HelloGrainClient).Dowork`. -/
def doworkResult {R0 R1 : Type} (resp : Reply R0 R1) : Run (Option R1 × Option GoError) :=
  match resp with
  | .DoworkResponse msg => .done (msg, none)
  | .GrainErrorResponse msg =>
    match msg with
    | none => .done (none, none)
    | some e => .done (none, some (GoError.grain (some e)))
  | _ => .done (none, some (GoError.other ("unknown response type " ++ resp.typeName)))

/-- Go `(*HelloGrainClient).Dowork`: the pair `(response, error)` it returns. -/
def HelloGrainClient.Dowork {Q1 R0 R1 : Type} (codec : Codec GoError Q1)
    (g : HelloGrainClient R0 R1) (r : Option Q1) : Run (Option R1 × Option GoError) :=
  match codec.Marshal r with
  | (_, some err) => .done (none, some err)
  | (bytes, none) =>
    let reqMsg : GrainRequest := { MethodIndex := 1, MessageData := bytes }
    match g.cluster.Request g.Identity "Hello" reqMsg with
    | (_, some err) => .done (none, some (GoError.wrap "error request" err))
    | (resp, none) => doworkResult resp

/-- A call of one of the two continuations handed to the reentrant business method:
`respond(resp)` or `onError(err)`. -/
inductive Continuation (R0 : Type) where
  | respond (resp : Option R0)
  | onError (err : Option GoError)
  deriving DecidableEq, Repr

/-- Go interface `Hello`, implemented over an object state `S`. Each method receives
the grain context and returns the new object state. `SayHello` also returns the calls it
made to its continuations before returning, in order, and its `error`; `Dowork` returns
its pair `(response, error)`. -/
structure Hello (S Q0 R0 Q1 R1 : Type) where
  Init : S → Option GrainContext → S
  Terminate : S → Option GrainContext → S
  ReceiveDefault : S → Option GrainContext → S
  SayHello : S → Q0 → Option GrainContext → S × List (Continuation R0) × Option GoError
  Dowork : S → Q1 → Option GrainContext → S × Option R1 × Option GoError

/-- What `Receive` and the continuations do to the outside, in order. -/
inductive Event (Q0 R0 Q1 R1 : Type) where
  /-- `ctx.Respond(v)` or `a.ctx.Respond(v)`. -/
  | Respond (v : Reply R0 R1)
  /-- `ctx.Logger().Error(msg, slog.Any("error", err))`. -/
  | LogError (msg : String) (err : GoError)
  | SetReceiveTimeout (d : Int)
  /-- `ctx.Poison(ctx.Self())`. -/
  | Poison
  /-- `a.inner.Init(a.ctx)`. -/
  | Init
  /-- `a.inner.Terminate(a.ctx)`. -/
  | Terminate
  /-- `a.inner.ReceiveDefault(a.ctx)`. -/
  | ReceiveDefault
  /-- `a.inner.SayHello(req, ...)`. -/
  | SayHello (req : Q0)
  /-- `a.inner.Dowork(req, a.ctx)`. -/
  | Dowork (req : Q1)
  deriving DecidableEq, Repr

/-- Go `HelloActor`. `ctx` and `inner` are nil (`none`) until `ClusterInit` is handled;
`inner` holds the state of the business object. `Timeout` is a `time.Duration`. -/
structure HelloActor (S : Type) where
  ctx : Option GrainContext
  inner : Option S
  Timeout : Int
  deriving DecidableEq, Repr

/-- Go `respond[T](ctx)`: the function it returns, applied to `resp`. `wrap` is the
conversion of a `T` to the `any` that `ctx.Respond` takes. -/
def respond {Q0 R0 Q1 R1 T : Type} (wrap : T → Reply R0 R1) (ctx : Option GrainContext)
    (resp : T) : Run (List (Event Q0 R0 Q1 R1)) :=
  match ctx with
  | none => .panic "nil pointer dereference: ctx"
  | some _ => .done [Event.Respond (wrap resp)]

/-- Go `(*HelloActor).onError`. -/
def HelloActor.onError {S Q0 R0 Q1 R1 : Type} (cl : ClusterPkg) (a : HelloActor S)
    (err : Option GoError) : Run (List (Event Q0 R0 Q1 R1)) :=
  let resp := cl.FromError err
  match a.ctx with
  | none => .panic "nil pointer dereference: a.ctx"
  | some _ => .done [Event.Respond (Reply.GrainErrorResponse resp)]

/-- The calls a reentrant business method makes to its continuations
`respond[*SayHelloResponse](a.ctx)` and `a.onError` before it returns. -/
def runContinuations {S Q0 R0 Q1 R1 : Type} (cl : ClusterPkg) (a : HelloActor S) :
    List (Continuation R0) → Run (List (Event Q0 R0 Q1 R1))
  | [] => .done []
  | call :: rest =>
    let first : Run (List (Event Q0 R0 Q1 R1)) :=
      match call with
      | .respond resp => respond Reply.SayHelloResponse a.ctx resp
      | .onError err => HelloActor.onError cl a err
    match first with
    | .panic reason => .panic reason
    | .done es =>
      match runContinuations cl a rest with
      | .panic reason => .panic reason
      | .done es2 => .done (es ++ es2)

/-- Go `(*HelloActor).Receive`, for the message `msg = ctx.Message()`. `xHelloFactory` is
the package variable of that name (`none`: never set; the function may return a nil
`Hello`). The result is the actor after the call and what the call did. -/
def HelloActor.Receive {S Q0 R0 Q1 R1 : Type} (cl : ClusterPkg)
    (codec0 : Codec GoError Q0) (codec1 : Codec GoError Q1) (impl : Hello S Q0 R0 Q1 R1)
    (xHelloFactory : Option (Unit → Option S)) (a : HelloActor S) (msg : Message) :
    Run (HelloActor S × List (Event Q0 R0 Q1 R1)) :=
  match msg with
  | .Started => .done (a, [])
  | .ClusterInit none => .panic "nil pointer dereference: msg.Identity"
  | .ClusterInit (some m) =>
    let gctx : GrainContext := { Identity := m.Identity }
    match xHelloFactory with
    | none => .panic "call of nil function: xHelloFactory"
    | some factory =>
      match factory () with
      | none => .panic "nil pointer dereference: a.inner.Init"
      | some s =>
        let s1 := impl.Init s (some gctx)
        let a1 : HelloActor S := { ctx := some gctx, inner := some s1, Timeout := a.Timeout }
        if a.Timeout > 0 then .done (a1, [Event.Init, Event.SetReceiveTimeout a.Timeout])
        else .done (a1, [Event.Init])
  | .ReceiveTimeout => .done (a, [Event.Poison])
  | .Stopped =>
    match a.inner with
    | none => .panic "nil pointer dereference: a.inner.Terminate"
    | some s => .done ({ a with inner := some (impl.Terminate s a.ctx) }, [Event.Terminate])
  | .AutoReceiveMessage => .done (a, [])
  | .SystemMessage => .done (a, [])
  | .GrainRequest none => .panic "nil pointer dereference: msg.MethodIndex"
  | .GrainRequest (some m) =>
    if m.MethodIndex = 0 then
      match codec0.Unmarshal m.MessageData with
      | (req, some err) =>
        let resp := (NewGrainErrorResponse ErrorReason.INVALID_ARGUMENT (err.Error cl)).WithMetadata
          [("argument", codec0.String req)]
        .done (a, [Event.LogError "[Grain] SayHello(SayHelloRequest) proto.Unmarshal failed." err,
                   Event.Respond (Reply.GrainErrorResponse (some resp))])
      | (req, none) =>
        match a.inner with
        | none => .panic "nil pointer dereference: a.inner.SayHello"
        | some s =>
          match impl.SayHello s req a.ctx with
          | (s1, calls, err) =>
            let a1 : HelloActor S := { a with inner := some s1 }
            match runContinuations cl a calls with
            | .panic reason => .panic reason
            | .done es =>
              match err with
              | some e =>
                .done (a1, [Event.SayHello req] ++ es ++
                  [Event.Respond (Reply.GrainErrorResponse (cl.FromError (some e)))])
              | none => .done (a1, [Event.SayHello req] ++ es)
    else if m.MethodIndex = 1 then
      match codec1.Unmarshal m.MessageData with
      | (req, some err) =>
        let resp := (NewGrainErrorResponse ErrorReason.INVALID_ARGUMENT (err.Error cl)).WithMetadata
          [("argument", codec1.String req)]
        .done (a, [Event.LogError "[Grain] Dowork(DoworkRequest) proto.Unmarshal failed." err,
                   Event.Respond (Reply.GrainErrorResponse (some resp))])
      | (req, none) =>
        match a.inner with
        | none => .panic "nil pointer dereference: a.inner.Dowork"
        | some s =>
          match impl.Dowork s req a.ctx with
          | (s1, r0, err) =>
            let a1 : HelloActor S := { a with inner := some s1 }
            match err with
            | some e =>
              .done (a1, [Event.Dowork req,
                Event.Respond (Reply.GrainErrorResponse (cl.FromError (some e)))])
            | none => .done (a1, [Event.Dowork req, Event.Respond (Reply.DoworkResponse r0)])
    else .done (a, [])
  | .other =>
    match a.inner with
    | none => .panic "nil pointer dereference: a.inner.ReceiveDefault"
    | some s =>
      .done ({ a with inner := some (impl.ReceiveDefault s a.ctx) }, [Event.ReceiveDefault])

/-- The response that one call of a continuation sends. -/
def continuationReply {R0 R1 : Type} (cl : ClusterPkg) : Continuation R0 → Reply R0 R1
  | .respond resp => Reply.SayHelloResponse resp
  | .onError err => Reply.GrainErrorResponse (cl.FromError err)

/-- The responses sent, in order: the values given to `Respond`. -/
def responses {Q0 R0 Q1 R1 : Type} : List (Event Q0 R0 Q1 R1) → List (Reply R0 R1)
  | [] => []
  | .Respond v :: rest => v :: responses rest
  | _ :: rest => responses rest

/-- The number of invocations of a business method (`SayHello` or `Dowork`). -/
def businessCalls {Q0 R0 Q1 R1 : Type} : List (Event Q0 R0 Q1 R1) → Nat
  | [] => 0
  | .SayHello _ :: rest => businessCalls rest + 1
  | .Dowork _ :: rest => businessCalls rest + 1
  | _ :: rest => businessCalls rest

end Reenter

namespace ClusterGrain

/-! ### `examples/cluster-grain/shared/protos_grain.pb.go` (generator v0.4.0) -/

/-- Go `cluster.GrainErrorResponse` as this file uses it: the older wire error, wrapping
only a plain message string `Err`. -/
structure GrainErrorResponse where
  Err : String
  deriving DecidableEq, Repr

/-- A non-nil Go `error`. `other text` is an error whose `Error()` returns `text`, such
as `errors.New(text)`; `wrap pre cause` is `fmt.Errorf(pre + ": %w", cause)`. -/
inductive GoError where
  | other (text : String)
  | wrap (pre : String) (cause : GoError)
  deriving DecidableEq, Repr

/-- Go `err.Error()`. -/
def GoError.Error : GoError → String
  | .other text => text
  | .wrap pre cause => pre ++ ": " ++ GoError.Error cause

/-- The dynamic value of an `any` that travels as a response. -/
inductive Reply (HelloResponse : Type) where
  /-- The nil interface. -/
  | nilInterface
  | HelloResponse (p : Option HelloResponse)
  | GrainErrorResponse (p : Option GrainErrorResponse)
  /-- A value of any other type; `typeName` is what `%T` prints for it. -/
  | other (typeName : String)
  deriving DecidableEq, Repr

/-- What the verb `%T` of `fmt` prints for a response. -/
def Reply.typeName {R : Type} : Reply R → String
  | .nilInterface => "<nil>"
  | .HelloResponse _ => "*shared.HelloResponse"
  | .GrainErrorResponse _ => "*cluster.GrainErrorResponse"
  | .other typeName => typeName

/-- Go `*cluster.Cluster`, as far as the client stub calls it. -/
structure Cluster (R : Type) where
  Request : String → String → GrainRequest → Reply R × Option GoError

/-- Go `HelloGrainClient`. -/
structure HelloGrainClient (R : Type) where
  Identity : String
  cluster : Cluster R

/-- The `switch msg := resp.(type)` that ends `(*HelloGrainClient).SayHello`. In the
case `*cluster.GrainErrorResponse` the field `msg.Err` is read without a nil check. -/
def sayHelloResult {R : Type} (resp : Reply R) : Run (Option R × Option GoError) :=
  match resp with
  | .HelloResponse msg => .done (msg, none)
  | .GrainErrorResponse msg =>
    match msg with
    | none => .panic "nil pointer dereference: msg.Err"
    | some e => .done (none, some (GoError.other e.Err))
  | _ => .done (none, some (GoError.other ("unknown response type " ++ resp.typeName)))

/-- Go `(*HelloGrainClient).SayHello`: the pair `(response, error)` it returns. -/
def HelloGrainClient.SayHello {Q R : Type} (codec : Codec GoError Q)
    (g : HelloGrainClient R) (r : Option Q) : Run (Option R × Option GoError) :=
  match codec.Marshal r with
  | (_, some err) => .done (none, some err)
  | (bytes, none) =>
    let reqMsg : GrainRequest := { MethodIndex := 0, MessageData := bytes }
    match g.cluster.Request g.Identity "Hello" reqMsg with
    | (_, some err) => .done (none, some (GoError.wrap "error request" err))
    | (resp, none) => sayHelloResult resp

/-- Go interface `Hello`, implemented over an object state `S`; `SayHello` returns its
pair `(response, error)`. -/
structure Hello (S Q R : Type) where
  Init : S → Option GrainContext → S
  Terminate : S → Option GrainContext → S
  ReceiveDefault : S → Option GrainContext → S
  SayHello : S → Q → Option GrainContext → S × Option R × Option GoError

/-- What `Receive` does to the outside, in order. -/
inductive Event (Q R : Type) where
  | Respond (v : Reply R)
  | LogError (msg : String) (err : GoError)
  | SetReceiveTimeout (d : Int)
  | Poison
  | Init
  | Terminate
  | ReceiveDefault
  | SayHello (req : Q)
  deriving DecidableEq, Repr

/-- Go `HelloActor`. -/
structure HelloActor (S : Type) where
  ctx : Option GrainContext
  inner : Option S
  Timeout : Int
  deriving DecidableEq, Repr

/-- Go `(*HelloActor).Receive`, for the message `msg = ctx.Message()`. -/
def HelloActor.Receive {S Q R : Type} (codec : Codec GoError Q) (impl : Hello S Q R)
    (xHelloFactory : Option (Unit → Option S)) (a : HelloActor S) (msg : Message) :
    Run (HelloActor S × List (Event Q R)) :=
  match msg with
  | .Started => .done (a, [])
  | .ClusterInit none => .panic "nil pointer dereference: msg.Identity"
  | .ClusterInit (some m) =>
    let gctx : GrainContext := { Identity := m.Identity }
    match xHelloFactory with
    | none => .panic "call of nil function: xHelloFactory"
    | some factory =>
      match factory () with
      | none => .panic "nil pointer dereference: a.inner.Init"
      | some s =>
        let s1 := impl.Init s (some gctx)
        let a1 : HelloActor S := { ctx := some gctx, inner := some s1, Timeout := a.Timeout }
        if a.Timeout > 0 then .done (a1, [Event.Init, Event.SetReceiveTimeout a.Timeout])
        else .done (a1, [Event.Init])
  | .ReceiveTimeout => .done (a, [Event.Poison])
  | .Stopped =>
    match a.inner with
    | none => .panic "nil pointer dereference: a.inner.Terminate"
    | some s => .done ({ a with inner := some (impl.Terminate s a.ctx) }, [Event.Terminate])
  | .AutoReceiveMessage => .done (a, [])
  | .SystemMessage => .done (a, [])
  | .GrainRequest none => .panic "nil pointer dereference: msg.MethodIndex"
  | .GrainRequest (some m) =>
    if m.MethodIndex = 0 then
      match codec.Unmarshal m.MessageData with
      | (_, some err) =>
        let resp : GrainErrorResponse := { Err := err.Error }
        .done (a, [Event.LogError "[Grain] SayHello(HelloRequest) proto.Unmarshal failed." err,
                   Event.Respond (Reply.GrainErrorResponse (some resp))])
      | (req, none) =>
        match a.inner with
        | none => .panic "nil pointer dereference: a.inner.SayHello"
        | some s =>
          match impl.SayHello s req a.ctx with
          | (s1, r0, err) =>
            let a1 : HelloActor S := { a with inner := some s1 }
            match err with
            | some e =>
              .done (a1, [Event.SayHello req,
                Event.Respond (Reply.GrainErrorResponse (some { Err := e.Error }))])
            | none => .done (a1, [Event.SayHello req, Event.Respond (Reply.HelloResponse r0)])
    else .done (a, [])
  | .other =>
    match a.inner with
    | none => .panic "nil pointer dereference: a.inner.ReceiveDefault"
    | some s =>
      .done ({ a with inner := some (impl.ReceiveDefault s a.ctx) }, [Event.ReceiveDefault])

/-- Go `(*HelloActor).onError`. -/
def HelloActor.onError {S Q R : Type} (a : HelloActor S) (err : Option GoError) :
    Run (List (Event Q R)) :=
  match err with
  | none => .panic "nil pointer dereference: err.Error"
  | some e =>
    let resp : GrainErrorResponse := { Err := e.Error }
    match a.ctx with
    | none => .panic "nil pointer dereference: a.ctx"
    | some _ => .done [Event.Respond (Reply.GrainErrorResponse (some resp))]

/-- Go `respond[T](ctx)`: the function it returns, applied to `resp`. -/
def respond {Q R T : Type} (wrap : T → Reply R) (ctx : Option GrainContext) (resp : T) :
    Run (List (Event Q R)) :=
  match ctx with
  | none => .panic "nil pointer dereference: ctx"
  | some _ => .done [Event.Respond (wrap resp)]

/-- The responses sent, in order. -/
def responses {Q R : Type} : List (Event Q R) → List (Reply R)
  | [] => []
  | .Respond v :: rest => v :: responses rest
  | _ :: rest => responses rest

/-- The number of invocations of the business method `SayHello`. -/
def businessCalls {Q R : Type} : List (Event Q R) → Nat
  | [] => 0
  | .SayHello _ :: rest => businessCalls rest + 1
  | _ :: rest => businessCalls rest

end ClusterGrain

/-! ### Concrete instances for evaluation -/

/-- Go `string(b)` for a slice of ASCII bytes. -/
def bytesToString (b : Bytes) : String := String.mk (b.map Char.ofNat)

/-- A concrete codec for evaluation, in the shape of the protobuf encoding of a message
with one string field: the tag byte 10, the length, the bytes of the text. A payload
whose declared length is not met fails to decode and leaves the message empty.
`mkErr` builds the codec's error from its text. -/
def sampleCodec {E : Type} (mkErr : String → E) : Codec E String where
  Marshal := fun r =>
    match r with
    | none => ([], none)
    | some m => if m.length = 0 then ([], none)
                else (10 :: m.length :: m.toList.map Char.toNat, none)
  Unmarshal := fun b =>
    match b with
    | [] => ("", none)
    | 10 :: n :: rest =>
      if rest.length = n then (bytesToString rest, none)
      else ("", some (mkErr "proto: cannot parse invalid wire-format data"))
    | _ => ("", some (mkErr "proto: cannot parse invalid wire-format data"))
  String := fun m => if m.length = 0 then "" else "name:" ++ m

/-- A concrete error bridge for evaluation: a grain error response is passed through,
any other error becomes a response with reason code 2 and the error text. -/
def sampleCluster : Reenter.ClusterPkg where
  FromError := fun e =>
    match e with
    | none => none
    | some (.grain r) => r
    | some (.other text) => some (Reenter.NewGrainErrorResponse (.other 2) text)
    | some (.wrap pre _) => some (Reenter.NewGrainErrorResponse (.other 2) pre)
  ErrorText := fun r =>
    match r with
    | none => "<nil>"
    | some r => r.Message

/-- A concrete business object for evaluation (reenter): the state counts the calls;
`SayHello` answers through its `respond` continuation before returning nil; `Dowork`
fails on an empty request. -/
def sampleHello : Reenter.Hello Nat String String String String where
  Init := fun s _ => s
  Terminate := fun s _ => s
  ReceiveDefault := fun s _ => s
  SayHello := fun s req _ => (s + 1, [Reenter.Continuation.respond (some ("Hello " ++ req))], none)
  Dowork := fun s req _ =>
    if req.length = 0 then (s + 1, none, some (Reenter.GoError.other "empty request"))
    else (s + 1, some ("done " ++ req), none)

/-- A concrete business object for evaluation (cluster-grain). -/
def sampleHelloBlocking : ClusterGrain.Hello Nat String String where
  Init := fun s _ => s
  Terminate := fun s _ => s
  ReceiveDefault := fun s _ => s
  SayHello := fun s req _ =>
    if req.length = 0 then (s + 1, none, some (ClusterGrain.GoError.other "empty request"))
    else (s + 1, some ("Hello " ++ req), none)

/-- An actor that has handled `ClusterInit` (reenter). -/
def sampleActor : Reenter.HelloActor Nat :=
  { ctx := some { Identity := "grain-1" }, inner := some 0, Timeout := 60 }

/-- An actor that has handled `ClusterInit` (cluster-grain). -/
def sampleActorBlocking : ClusterGrain.HelloActor Nat :=
  { ctx := some { Identity := "grain-1" }, inner := some 0, Timeout := 60 }

/-! ## Part 4. `generateErrorReasons` and `generateContent` -/

/-- Go `*protogen.EnumValue`, as far as `generateErrorReasons` reads it: `Name` is
`string(v.Desc.Name())`, `Leading` is `v.Comments.Leading.String()` and `Trailing` is
`v.Comments.Trailing.String()`. -/
structure EnumValue where
  Name : String
  Leading : String
  Trailing : String
  deriving DecidableEq, Repr

/-- Go `*protogen.Enum`, as far as the generator reads it: `Name` is
`enum.Desc.Name()`, `Values` the values in declaration order. -/
structure Enum where
  Name : String
  Values : List EnumValue
  deriving DecidableEq, Repr

/-- Go `errorDesc` (the record handed to the error template). -/
structure errorDesc where
  Name : String
  Value : String
  CamelValue : String
  Comment : String
  HasComment : Bool
  deriving DecidableEq, Repr

/-- Go `errorsWrapper`. -/
structure errorsWrapper where
  Errors : List errorDesc
  deriving DecidableEq, Repr

/-- The `for _, v := range enum.Values` loop of `generateErrorReasons`, with the
remaining values and `es.Errors = acc`. -/
def errorLoop (enum : Enum) : List EnumValue → List errorDesc → List errorDesc
  | [], acc => acc
  | v :: rest, acc =>
    let comment0 := v.Leading
    let comment := if comment0 = "" then v.Trailing else comment0
    let err : errorDesc :=
      { Name := enum.Name,
        Value := v.Name,
        CamelValue := String.mk (toCamel v.Name.toList),
        Comment := comment,
        HasComment := decide (comment.utf8ByteSize > 0) }
    errorLoop enum rest (acc ++ [err])

/-- Go `generateErrorReasons`. `execute` is the template rendering `es.execute()`
(file `template.go`, not among the sources). The result is the generated file. -/
def generateErrorReasons {G : Type} (ops : GeneratedFile G) (execute : errorsWrapper → String)
    (g : G) (enum : Enum) : G :=
  let es : errorsWrapper := { Errors := errorLoop enum enum.Values [] }
  if es.Errors.length ≠ 0 then ops.P g [execute es] else g

/-- Go `generateRespond`. -/
def generateRespond {G : Type} (ops : GeneratedFile G) (g : G) : G :=
  let g1 := ops.P g ["func respond[T proto.Message](ctx cluster.GrainContext) func (T) \x7b"]
  let g2 := ops.P g1 ["return func (resp T) \x7b"]
  let g3 := ops.P g2 ["ctx.Respond(resp)"]
  let g4 := ops.P g3 ["\x7d"]
  ops.P g4 ["\x7d"]

/-- Go `*protogen.File`, as far as `generateContent` reads it. -/
structure File where
  GoPackageName : String
  Enums : List Enum
  Services : List Service
  deriving DecidableEq, Repr

/-- The `for _, enum := range file.Enums` loop of `generateContent`. -/
def enumLoop {G : Type} (ops : GeneratedFile G) (executeErrors : errorsWrapper → String) :
    G → List Enum → G
  | g, [] => g
  | g, enum :: rest =>
    if enum.Name = "ErrorReason" then
      enumLoop ops executeErrors (generateErrorReasons ops executeErrors g enum) rest
    else enumLoop ops executeErrors g rest

/-- The `for _, service := range file.Services` loop of `generateContent`. -/
def serviceLoop {G : Type} (ops : GeneratedFile G) (execute : serviceDesc → String) :
    G → List Service → G
  | g, [] => g
  | g, service :: rest =>
    serviceLoop ops execute (ops.P (generateService ops execute service g) []) rest

/-- Go `generateContent`. The six imports are registered in the order of the source:
actor, cluster, proto, fmt, time, log/slog. -/
def generateContent {G : Type} (ops : GeneratedFile G) (execute : serviceDesc → String)
    (executeErrors : errorsWrapper → String) (file : File) (g : G) : G :=
  let g0 := ops.P g ["package ", file.GoPackageName]
  if file.Services.length = 0 then g0
  else
    let g1 := (ops.QualifiedGoIdent g0 ⟨"", "github.com/asynkron/protoactor-go/actor"⟩).2
    let g2 := (ops.QualifiedGoIdent g1 ⟨"", "github.com/asynkron/protoactor-go/cluster"⟩).2
    let g3 := (ops.QualifiedGoIdent g2 ⟨"", "google.golang.org/protobuf/proto"⟩).2
    let g4 := (ops.QualifiedGoIdent g3 ⟨"", "fmt"⟩).2
    let g5 := (ops.QualifiedGoIdent g4 ⟨"", "time"⟩).2
    let g6 := (ops.QualifiedGoIdent g5 ⟨"", "log/slog"⟩).2
    let g7 := enumLoop ops executeErrors g6 file.Enums
    let g8 := serviceLoop ops execute g7 file.Services
    generateRespond ops g8

/-- An error-reason catalog for evaluation: one value documented by a leading comment,
one by a trailing comment, one undocumented. -/
def sampleEnum : Enum :=
  { Name := "ErrorReason",
    Values :=
      [ { Name := "USER_NOT_FOUND", Leading := "// user is unknown\n", Trailing := "" },
        { Name := "QUOTA", Leading := "", Trailing := "// quota exceeded\n" },
        { Name := "INTERNAL", Leading := "", Trailing := "" } ] }

/-- An actor that has not handled `ClusterInit` yet (reenter). -/
def freshActor : Reenter.HelloActor Nat := { ctx := none, inner := none, Timeout := 60 }

/-- An actor that has not handled `ClusterInit` yet (cluster-grain). -/
def freshActorBlocking : ClusterGrain.HelloActor Nat :=
  { ctx := none, inner := none, Timeout := 60 }

/-- A registered factory for evaluation: it returns a business object in state 0. -/
def sampleFactory : Option (Unit → Option Nat) := some (fun _ => some 0)

/-- A request fails (reenter): its index is known and either its payload does not decode
or the business method, called on the decoded request, returns a non-nil error. -/
def Reenter.requestFails {S Q0 R0 Q1 R1 : Type} (codec0 : Codec Reenter.GoError Q0)
    (codec1 : Codec Reenter.GoError Q1) (impl : Reenter.Hello S Q0 R0 Q1 R1) (s : S)
    (ctx : Option GrainContext) (m : GrainRequest) : Prop :=
  (m.MethodIndex = 0 ∧
    ((codec0.Unmarshal m.MessageData).2 ≠ none ∨
     (impl.SayHello s (codec0.Unmarshal m.MessageData).1 ctx).2.2 ≠ none)) ∨
  (m.MethodIndex = 1 ∧
    ((codec1.Unmarshal m.MessageData).2 ≠ none ∨
     (impl.Dowork s (codec1.Unmarshal m.MessageData).1 ctx).2.2 ≠ none))

/-- A request fails (cluster-grain): its index is known and either its payload does not
decode or the business method, called on the decoded request, returns a non-nil error. -/
def ClusterGrain.requestFails {S Q R : Type} (codec : Codec ClusterGrain.GoError Q)
    (impl : ClusterGrain.Hello S Q R) (s : S) (ctx : Option GrainContext)
    (m : GrainRequest) : Prop :=
  m.MethodIndex = 0 ∧
    ((codec.Unmarshal m.MessageData).2 ≠ none ∨
     (impl.SayHello s (codec.Unmarshal m.MessageData).1 ctx).2.2 ≠ none)

/-! # Theorems -/

/-! ## Theorems, part 1: `generateService` -/

/-- The loop only ever appends to `sd.Methods`. -/
theorem methodLoop_acc {G : Type} (ops : GeneratedFile G) (ms : List Method) :
    ∀ (g : G) (i : Nat) (acc : List methodDesc),
      methodLoop ops g i ms acc
        = (acc ++ (methodLoop ops g i ms []).1, (methodLoop ops g i ms []).2) := by
  induction ms with
  | nil => intro g i acc; simp [methodLoop]
  | cons m rest ih =>
    intro g i acc
    unfold methodLoop
    by_cases hs : (m.IsStreamingClient || m.IsStreamingServer) = true
    · simp only [hs, if_true]; exact ih g (i + 1) acc
    · simp only [hs]
      cases hx : assertMethodOptions (GetExtension m.Options) with
      | none => simp only [Bool.false_eq_true, if_false]; exact ih g (i + 1) acc
      | some p =>
        simp only [Bool.false_eq_true, if_false, List.nil_append]
        rw [ih _ (i + 1) (acc ++ _), ih _ (i + 1) [_]]
        simp

/-- One iteration of the loop, as an equation. -/
theorem methodLoop_cons {G : Type} (ops : GeneratedFile G) (g : G) (i : Nat) (m : Method)
    (rest : List Method) (acc : List methodDesc) :
    methodLoop ops g i (m :: rest) acc =
      if m.IsStreamingClient || m.IsStreamingServer then methodLoop ops g (i + 1) rest acc
      else
        match assertMethodOptions (GetExtension m.Options) with
        | none => methodLoop ops g (i + 1) rest acc
        | some p =>
          methodLoop ops
            (ops.QualifiedGoIdent (ops.QualifiedGoIdent g m.Input).2 m.Output).2 (i + 1) rest
            (acc ++ [{ Name := m.GoName, Input := (ops.QualifiedGoIdent g m.Input).1,
                       Output := (ops.QualifiedGoIdent
                          (ops.QualifiedGoIdent g m.Input).2 m.Output).1,
                       Index := i,
                       Options := match p with
                         | none => MethodOptions.zero
                         | some o => o }]) := by
  rw [methodLoop]

/-- Running the loop over `ms ++ extra` is running it over `ms` and then over `extra`. -/
theorem methodLoop_append {G : Type} (ops : GeneratedFile G) (ms extra : List Method) :
    ∀ (g : G) (i : Nat) (acc : List methodDesc),
      methodLoop ops g i (ms ++ extra) acc
        = methodLoop ops (methodLoop ops g i ms acc).2 (i + ms.length) extra
            (methodLoop ops g i ms acc).1 := by
  induction ms with
  | nil => intro g i acc; simp [methodLoop]
  | cons m rest ih =>
    intro g i acc
    have hlen : i + (m :: rest).length = i + 1 + rest.length := by
      simp [List.length_cons]; omega
    rw [hlen, List.cons_append]
    simp only [methodLoop_cons]
    by_cases hs : (m.IsStreamingClient || m.IsStreamingServer) = true
    · simp only [hs, if_true]; exact ih g (i + 1) acc
    · simp only [hs]
      cases hx : assertMethodOptions (GetExtension m.Options) with
      | none => simp only [Bool.false_eq_true, if_false]; exact ih g (i + 1) acc
      | some p =>
        simp only [Bool.false_eq_true, if_false]
        exact ih _ (i + 1) _

/-- Every method definition the loop appends describes the method at its `Index`. -/
theorem methodLoop_sound {G : Type} (ops : GeneratedFile G) (ms : List Method) :
    ∀ (g : G) (i : Nat) (md : methodDesc), md ∈ (methodLoop ops g i ms []).1 →
      ∃ (k : Nat) (m : Method) (g1 : G), ms[k]? = some m ∧ md.Index = i + k ∧
        m.IsStreamingClient = false ∧ m.IsStreamingServer = false ∧
        md.Name = m.GoName ∧
        md.Input = (ops.QualifiedGoIdent g1 m.Input).1 ∧
        md.Output = (ops.QualifiedGoIdent (ops.QualifiedGoIdent g1 m.Input).2 m.Output).1 := by
  induction ms with
  | nil => intro g i md h; simp [methodLoop] at h
  | cons m rest ih =>
    intro g i md h
    have lift : ∀ g2, md ∈ (methodLoop ops g2 (i + 1) rest []).1 →
        ∃ (k : Nat) (m1 : Method) (g1 : G), (m :: rest)[k]? = some m1 ∧ md.Index = i + k ∧
          m1.IsStreamingClient = false ∧ m1.IsStreamingServer = false ∧
          md.Name = m1.GoName ∧
          md.Input = (ops.QualifiedGoIdent g1 m1.Input).1 ∧
          md.Output
            = (ops.QualifiedGoIdent (ops.QualifiedGoIdent g1 m1.Input).2 m1.Output).1 := by
      intro g2 h2
      obtain ⟨k, m1, g1, hk, hi, r⟩ := ih g2 (i + 1) md h2
      exact ⟨k + 1, m1, g1, by simpa using hk, by omega, r⟩
    rw [methodLoop_cons] at h
    by_cases hs : (m.IsStreamingClient || m.IsStreamingServer) = true
    · simp only [hs, if_true] at h; exact lift g h
    · simp only [hs] at h
      cases hx : assertMethodOptions (GetExtension m.Options) with
      | none => simp only [hx, Bool.false_eq_true, if_false] at h; exact lift g h
      | some p =>
        simp only [hx, Bool.false_eq_true, if_false, List.nil_append] at h
        rw [methodLoop_acc] at h
        simp only [List.mem_append, List.mem_singleton] at h
        rcases h with h | h
        · subst h
          refine ⟨0, m, g, by simp, rfl, ?_, ?_, rfl, rfl, rfl⟩
          · cases hc : m.IsStreamingClient <;> simp_all
          · cases hc : m.IsStreamingServer <;> simp_all
        · exact lift _ h

/-- The indices of the definitions the loop appends from position `i` on are at
least `i` and strictly increasing. -/
theorem methodLoop_indices {G : Type} (ops : GeneratedFile G) (ms : List Method) :
    ∀ (g : G) (i : Nat),
      (∀ md ∈ (methodLoop ops g i ms []).1, i ≤ md.Index) ∧
      List.Pairwise (fun a b => a < b) ((methodLoop ops g i ms []).1.map methodDesc.Index) := by
  induction ms with
  | nil => intro g i; simp [methodLoop]
  | cons m rest ih =>
    intro g i
    have lift : ∀ g2, (∀ md ∈ (methodLoop ops g2 (i + 1) rest []).1, i ≤ md.Index) := by
      intro g2 md h
      have := (ih g2 (i + 1)).1 md h
      omega
    rw [methodLoop_cons]
    by_cases hs : (m.IsStreamingClient || m.IsStreamingServer) = true
    · simp only [hs, if_true]; exact ⟨lift g, (ih g (i + 1)).2⟩
    · simp only [hs]
      cases hx : assertMethodOptions (GetExtension m.Options) with
      | none => simp only [Bool.false_eq_true, if_false]; exact ⟨lift g, (ih g (i + 1)).2⟩
      | some p =>
        simp only [Bool.false_eq_true, if_false, List.nil_append]
        rw [methodLoop_acc]
        refine ⟨?_, ?_⟩
        · intro md h
          simp only [List.mem_append, List.mem_singleton] at h
          rcases h with h | h
          · subst h; exact Nat.le_refl _
          · exact lift _ md h
        · simp only [List.map_append, List.map_cons, List.map_nil, List.singleton_append,
            List.pairwise_cons]
          refine ⟨?_, (ih _ (i + 1)).2⟩
          intro b hb
          obtain ⟨md, hmd, rfl⟩ := List.mem_map.1 hb
          have := (ih _ (i + 1)).1 md hmd
          omega

/-- Whether `generateService` keeps a method: it is streaming in neither direction. -/
theorem methodLoop_length {G : Type} (ops : GeneratedFile G) (ms : List Method) :
    ∀ (g : G) (i : Nat),
      (methodLoop ops g i ms []).1.length
        = (ms.filter (fun m => !(m.IsStreamingClient || m.IsStreamingServer))).length := by
  induction ms with
  | nil => intro g i; simp [methodLoop]
  | cons m rest ih =>
    intro g i
    rw [methodLoop_cons]
    by_cases hs : (m.IsStreamingClient || m.IsStreamingServer) = true
    · simp only [hs, if_true, List.filter_cons, Bool.not_true, Bool.false_eq_true, if_false]
      exact ih g (i + 1)
    · have hx : assertMethodOptions (GetExtension m.Options)
          = some (match m.Options with
                  | none => none
                  | some o => o.GrainMethodOptions) := by
        cases m.Options <;> rfl
      simp only [hs, hx, Bool.false_eq_true, if_false, List.nil_append]
      rw [methodLoop_acc]
      have hf : (!(m.IsStreamingClient || m.IsStreamingServer)) = true := by
        cases hb : (m.IsStreamingClient || m.IsStreamingServer) <;> simp_all
      simp only [List.filter_cons, hf, if_true, List.length_append, List.length_cons,
        List.length_nil, ih]
      omega

/-- The options `generateService` records for a method it keeps: those of the
extension when present, the zero value otherwise. -/
theorem methodLoop_complete {G : Type} (ops : GeneratedFile G) (ms : List Method) :
    ∀ (g : G) (i k : Nat) (m : Method), ms[k]? = some m →
      m.IsStreamingClient = false → m.IsStreamingServer = false →
      ∃ md ∈ (methodLoop ops g i ms []).1, md.Index = i + k ∧ md.Name = m.GoName ∧
        md.Options = (match m.Options with
                      | some o => (match o.GrainMethodOptions with
                                   | some x => x
                                   | none => MethodOptions.zero)
                      | none => MethodOptions.zero) := by
  induction ms with
  | nil => intro g i k m h; simp at h
  | cons m0 rest ih =>
    intro g i k m hk hc hsv
    have hx : assertMethodOptions (GetExtension m0.Options)
        = some (match m0.Options with
                | none => none
                | some o => o.GrainMethodOptions) := by
      cases m0.Options <;> rfl
    rw [methodLoop_cons]
    cases k with
    | zero =>
      simp only [List.getElem?_cons_zero, Option.some.injEq] at hk
      subst hk
      simp only [hc, hsv, Bool.or_self, Bool.false_eq_true, if_false, hx, List.nil_append]
      rw [methodLoop_acc]
      refine ⟨_, List.mem_append_left _ (List.mem_singleton_self _), rfl, rfl, ?_⟩
      cases hm : m0.Options with
      | none => rfl
      | some o => cases ho : o.GrainMethodOptions <;> simp [ho]
    | succ k =>
      simp only [List.getElem?_cons_succ] at hk
      have lift : ∀ g2 (l : List methodDesc),
          ∃ md ∈ l ++ (methodLoop ops g2 (i + 1) rest []).1, md.Index = i + (k + 1) ∧
            md.Name = m.GoName ∧
            md.Options = (match m.Options with
                          | some o => (match o.GrainMethodOptions with
                                       | some x => x
                                       | none => MethodOptions.zero)
                          | none => MethodOptions.zero) := by
        intro g2 l
        obtain ⟨md, hmem, hi, r⟩ := ih g2 (i + 1) k m hk hc hsv
        exact ⟨md, List.mem_append_right _ hmem, by omega, r⟩
      by_cases hs : (m0.IsStreamingClient || m0.IsStreamingServer) = true
      · simp only [hs, if_true]; simpa using lift g []
      · simp only [hs, hx, Bool.false_eq_true, if_false, List.nil_append]
        rw [methodLoop_acc]
        exact lift _ _

/-! ### Claims about `generateService` -/

/-- C1. Every method definition in the `sd.Methods` that `generateService` builds from
a service has an `Index` that is a valid zero-based position in the full method
sequence of the service; the method at that position is streaming in neither
direction, and the definition carries its Go name and the qualified identifiers of
its input and output types. -/
theorem generateService_index_is_source_position {G : Type} (ops : GeneratedFile G)
    (service : Service) (g : G) (md : methodDesc)
    (h : md ∈ (buildServiceDesc ops service g).1.Methods) :
    ∃ (hi : md.Index < service.Methods.length) (g1 : G),
      (service.Methods.get ⟨md.Index, hi⟩).IsStreamingClient = false ∧
      (service.Methods.get ⟨md.Index, hi⟩).IsStreamingServer = false ∧
      md.Name = (service.Methods.get ⟨md.Index, hi⟩).GoName ∧
      md.Input = (ops.QualifiedGoIdent g1 (service.Methods.get ⟨md.Index, hi⟩).Input).1 ∧
      md.Output = (ops.QualifiedGoIdent
        (ops.QualifiedGoIdent g1 (service.Methods.get ⟨md.Index, hi⟩).Input).2
        (service.Methods.get ⟨md.Index, hi⟩).Output).1 := by
  obtain ⟨k, m, g1, hk, hidx, r⟩ := methodLoop_sound ops service.Methods g 0 md h
  have hk2 : service.Methods[md.Index]? = some m := by
    rw [hidx, Nat.zero_add]; exact hk
  obtain ⟨hi, hget⟩ := List.getElem?_eq_some_iff.1 hk2
  refine ⟨hi, g1, ?_⟩
  have : service.Methods.get ⟨md.Index, hi⟩ = m := by simpa using hget
  rw [this]
  exact r

/-- C1, evaluated: in the sample service the definition of `SayHello` keeps index 1. -/
theorem generateService_index_is_source_position_witness :
    ∃ (hi : 1 < sampleMethods.length) (g1 : List String),
      (sampleMethods.get ⟨1, hi⟩).IsStreamingClient = false ∧
      (sampleMethods.get ⟨1, hi⟩).IsStreamingServer = false ∧
      "SayHello" = (sampleMethods.get ⟨1, hi⟩).GoName ∧
      "hello.SayHelloRequest"
        = (sampleFile.QualifiedGoIdent g1 (sampleMethods.get ⟨1, hi⟩).Input).1 ∧
      "hello.SayHelloResponse" = (sampleFile.QualifiedGoIdent
        (sampleFile.QualifiedGoIdent g1 (sampleMethods.get ⟨1, hi⟩).Input).2
        (sampleMethods.get ⟨1, hi⟩).Output).1 :=
  generateService_index_is_source_position sampleFile ⟨"Hello", false, sampleMethods⟩ []
    { Name := "SayHello", Input := "hello.SayHelloRequest", Output := "hello.SayHelloResponse",
      Index := 1, Options := ⟨true, false⟩ }
    (by decide)

/-- C3, refuted as stated: a service whose only method is unary and declared without
any option (no `MethodOptions` extension) still yields one method definition, with
index 0 and the zero-valued options. -/
theorem unannotated_method_is_kept :
    GetExtension none = ExtensionValue.methodOptions none ∧
    derivedMethods sampleFile []
        [ { GoName := "Dowork", Input := ⟨"DoworkRequest", "hello"⟩,
            Output := ⟨"DoworkResponse", "hello"⟩,
            IsStreamingClient := false, IsStreamingServer := false, Options := none } ]
      = [ { Name := "Dowork", Input := "hello.DoworkRequest",
            Output := "hello.DoworkResponse", Index := 0,
            Options := MethodOptions.zero } ] := by
  decide

/-- C3, amended. `generateService` skips exactly the methods that are streaming in
either direction. A non-streaming method whose options do not carry the
`MethodOptions` extension is kept: it yields a definition with its position as index
and the zero-valued `MethodOptions`. A method sequence with N non-streaming methods,
annotated or not, yields exactly N method definitions. -/
theorem generateService_keeps_every_unary_method {G : Type} (ops : GeneratedFile G)
    (g : G) (ms : List Method) :
    (derivedMethods ops g ms).length
      = (ms.filter (fun m => !(m.IsStreamingClient || m.IsStreamingServer))).length ∧
    ∀ (k : Nat) (m : Method), ms[k]? = some m →
      m.IsStreamingClient = false → m.IsStreamingServer = false →
      (m.Options = none ∨ m.Options = some ⟨none⟩) →
      ∃ md ∈ derivedMethods ops g ms,
        md.Index = k ∧ md.Name = m.GoName ∧ md.Options = MethodOptions.zero := by
  refine ⟨methodLoop_length ops ms g 0, ?_⟩
  intro k m hk hc hs hopt
  obtain ⟨md, hmem, hi, hn, ho⟩ := methodLoop_complete ops ms g 0 k m hk hc hs
  refine ⟨md, hmem, by omega, hn, ?_⟩
  rcases hopt with h | h <;> simpa [h] using ho

/-- C3 amended, evaluated on the sample service: `Dowork`, at position 2 and without
options, is kept with index 2; two of the three methods are not streaming and two
definitions are derived. -/
theorem generateService_keeps_every_unary_method_witness :
    (derivedMethods sampleFile [] sampleMethods).length = 2 ∧
    ∃ md ∈ derivedMethods sampleFile [] sampleMethods,
      md.Index = 2 ∧ md.Name = "Dowork" ∧ md.Options = MethodOptions.zero :=
  ⟨(generateService_keeps_every_unary_method sampleFile [] sampleMethods).1,
   (generateService_keeps_every_unary_method sampleFile [] sampleMethods).2 2
      { GoName := "Dowork", Input := ⟨"DoworkRequest", "hello"⟩,
        Output := ⟨"DoworkResponse", "hello"⟩,
        IsStreamingClient := false, IsStreamingServer := false, Options := none }
      (by decide) rfl rfl (Or.inl rfl)⟩

/-- C4. Index stability under later insertion: the definitions derived from
`ms ++ extra` start with the definitions derived from `ms`, unchanged (names, types,
indices); and the indices of any derived list are strictly increasing, hence pairwise
distinct. -/
theorem generateService_index_stable {G : Type} (ops : GeneratedFile G) (g : G)
    (ms extra : List Method) :
    derivedMethods ops g ms <+: derivedMethods ops g (ms ++ extra) ∧
    List.Pairwise (fun a b => a < b) ((derivedMethods ops g ms).map methodDesc.Index) ∧
    ((derivedMethods ops g ms).map methodDesc.Index).Nodup := by
  have hsorted := (methodLoop_indices ops ms g 0).2
  refine ⟨?_, hsorted, ?_⟩
  · unfold derivedMethods
    rw [methodLoop_append, methodLoop_acc ops extra]
    exact List.prefix_append _ _
  · exact hsorted.imp (fun h => Nat.ne_of_lt h)

/-! ## Theorems, part 2: `toCamel` -/

theorem toNat_ofNat_small (n : Nat) (h : n < 55296) : (Char.ofNat n).toNat = n := by
  unfold Char.ofNat
  rw [dif_pos (Or.inl h)]
  simp only [Char.ofNatAux, Char.toNat]
  show (UInt32.ofNat' n _).toNat = n
  rfl

theorem isUpper_iff (c : Char) : c.isUpper = true ↔ 65 ≤ c.toNat ∧ c.toNat ≤ 90 := by
  simp only [Char.isUpper, Bool.and_eq_true, decide_eq_true_eq, Char.toNat]
  exact Iff.rfl

theorem isLower_iff (c : Char) : c.isLower = true ↔ 97 ≤ c.toNat ∧ c.toNat ≤ 122 := by
  simp only [Char.isLower, Bool.and_eq_true, decide_eq_true_eq, Char.toNat]
  exact Iff.rfl

theorem isDigit_iff (c : Char) : c.isDigit = true ↔ 48 ≤ c.toNat ∧ c.toNat ≤ 57 := by
  simp only [Char.isDigit, Bool.and_eq_true, decide_eq_true_eq, Char.toNat]
  exact Iff.rfl

theorem isAlpha_iff (c : Char) :
    c.isAlpha = true ↔ (65 ≤ c.toNat ∧ c.toNat ≤ 90) ∨ (97 ≤ c.toNat ∧ c.toNat ≤ 122) := by
  simp only [Char.isAlpha, Bool.or_eq_true, isUpper_iff, isLower_iff]

theorem toUpper_toNat (c : Char) :
    c.toUpper.toNat = if 97 ≤ c.toNat ∧ c.toNat ≤ 122 then c.toNat - 32 else c.toNat := by
  unfold Char.toUpper
  simp only [ge_iff_le]
  split
  · rw [toNat_ofNat_small]; omega
  · rfl

theorem toLower_toNat (c : Char) :
    c.toLower.toNat = if 65 ≤ c.toNat ∧ c.toNat ≤ 90 then c.toNat + 32 else c.toNat := by
  unfold Char.toLower
  simp only [ge_iff_le]
  split
  · rw [toNat_ofNat_small]; omega
  · rfl

theorem char_eq_of_toNat_eq {a b : Char} (h : a.toNat = b.toNat) : a = b := by
  rw [← Char.ofNat_toNat a, ← Char.ofNat_toNat b, h]

/-- Lower-casing a character that is not a letter leaves it as it is. -/
theorem toLower_of_not_isAlpha (c : Char) (h : c.isAlpha = false) : c.toLower = c := by
  apply char_eq_of_toNat_eq
  rw [toLower_toNat]
  have := (isAlpha_iff c).not.1 (by simp [h])
  split <;> omega

/-- A lower-cased letter is a letter. -/
theorem isAlpha_toLower (c : Char) (h : c.isAlpha = true) : c.toLower.isAlpha = true := by
  rw [isAlpha_iff] at h ⊢
  rw [toLower_toNat]
  split <;> omega

/-- Upper-casing after lower-casing is upper-casing. -/
theorem toUpper_toLower (c : Char) : c.toLower.toUpper = c.toUpper := by
  apply char_eq_of_toNat_eq
  rw [toUpper_toNat, toUpper_toNat, toLower_toNat]
  split_ifs <;> omega

/-- Upper-casing fixes exactly the characters that are not lower-case letters. -/
theorem toUpper_eq_self_iff (c : Char) : c.toUpper = c ↔ c.isLower = false := by
  constructor
  · intro h
    have h2 := congrArg Char.toNat h
    rw [toUpper_toNat] at h2
    have := isLower_iff c
    cases hl : c.isLower
    · rfl
    · rw [hl] at this
      have := this.1 rfl
      rw [if_pos this] at h2
      omega
  · intro h
    apply char_eq_of_toNat_eq
    rw [toUpper_toNat]
    have := (isLower_iff c).not.1 (by simp [h])
    rw [if_neg this]

/-- A character of an identifier: an ASCII letter, a digit or the underscore. -/
theorem ident_not_mid_not_break (c : Char) (h : c.isAlphanum = true ∨ c = '_') :
    isMid c = false ∧ isBreak c = false := by
  have hw : (c.isAlphanum || c == '_') = true := by
    rcases h with h | h
    · simp [h]
    · simp [h]
  have hm : isMid c = false := by
    rcases h with h | h
    · simp only [Char.isAlphanum, Bool.or_eq_true, isAlpha_iff, isDigit_iff] at h
      simp only [isMid, Bool.or_eq_false_iff, decide_eq_false_iff_not]
      omega
    · subst h; decide
  exact ⟨hm, by simp [isBreak, hw]⟩

/-- One step of the title caser on an identifier character. -/
theorem titleTransform_cons_ident (noLower mid : Bool) (c : Char) (rest : List Char)
    (h : c.isAlphanum = true ∨ c = '_') :
    titleTransform noLower mid (c :: rest)
      = (if c.isAlpha then
           (if !mid then c.toUpper else if noLower then c else c.toLower)
         else c)
        :: titleTransform noLower (if c.isAlpha then true else mid) rest := by
  obtain ⟨hm, hb⟩ := ident_not_mid_not_break c h
  cases rest with
  | nil => simp [titleTransform, isCased]
  | cons d r =>
    rw [titleTransform]
    simp only [isCased, hm, hb, Bool.false_and, Bool.false_eq_true, if_false]

/-- Inside a word the caser without lower-casing copies an identifier. -/
theorem titleTransform_noLower_mid (s : List Char)
    (h : ∀ c ∈ s, c.isAlphanum = true ∨ c = '_') : titleTransform true true s = s := by
  induction s with
  | nil => rfl
  | cons c rest ih =>
    rw [titleTransform_cons_ident _ _ _ _ (h c (List.mem_cons_self _ _))]
    have ih2 := ih (fun d hd => h d (List.mem_cons_of_mem _ hd))
    cases hc : c.isAlpha <;> simp [ih2]

/-- Inside a word the lower-casing caser lower-cases an identifier. -/
theorem titleTransform_lower_mid (s : List Char)
    (h : ∀ c ∈ s, c.isAlphanum = true ∨ c = '_') :
    titleTransform false true s = s.map Char.toLower := by
  induction s with
  | nil => rfl
  | cons c rest ih =>
    rw [titleTransform_cons_ident _ _ _ _ (h c (List.mem_cons_self _ _))]
    have ih2 := ih (fun d hd => h d (List.mem_cons_of_mem _ hd))
    cases hc : c.isAlpha
    · simp [ih2, toLower_of_not_isAlpha c hc]
    · simp [ih2]

/-- On an identifier, `noLowerCaser` capitalises the first letter and keeps the rest. -/
theorem noLowerCaser_ident (s : List Char) (h : ∀ c ∈ s, c.isAlphanum = true ∨ c = '_') :
    noLowerCaser s = capitalizeFirstLetter s := by
  unfold noLowerCaser
  induction s with
  | nil => rfl
  | cons c rest ih =>
    rw [titleTransform_cons_ident _ _ _ _ (h c (List.mem_cons_self _ _))]
    have hrest := fun d hd => h d (List.mem_cons_of_mem c hd)
    cases hc : c.isAlpha
    · simp [capitalizeFirstLetter, hc, ih hrest]
    · simp [capitalizeFirstLetter, hc, titleTransform_noLower_mid rest hrest]

/-- On an identifier, `caser` capitalises the first letter and lower-cases the rest. -/
theorem caser_ident (s : List Char) (h : ∀ c ∈ s, c.isAlphanum = true ∨ c = '_') :
    caser s = capitalizeFirstLetter (s.map Char.toLower) := by
  unfold caser
  induction s with
  | nil => rfl
  | cons c rest ih =>
    rw [titleTransform_cons_ident _ _ _ _ (h c (List.mem_cons_self _ _))]
    have hrest := fun d hd => h d (List.mem_cons_of_mem c hd)
    cases hc : c.isAlpha
    · have hl : c.toLower.isAlpha = false := by rw [toLower_of_not_isAlpha c hc]; exact hc
      simp [capitalizeFirstLetter, hc, hl, ih hrest, toLower_of_not_isAlpha c hc]
    · simp [capitalizeFirstLetter, hc, isAlpha_toLower c hc, toUpper_toLower,
        titleTransform_lower_mid rest hrest]

/-- The comparison `s == strings.ToUpper(s)` holds exactly when no letter of `s` is
lower-case. -/
theorem eq_ToUpper_iff (s : List Char) : s = ToUpper s ↔ isAllUpper s = true := by
  unfold ToUpper isAllUpper
  induction s with
  | nil => simp
  | cons c rest ih =>
    simp only [List.map_cons, List.cons.injEq, List.all_cons, Bool.and_eq_true,
      Bool.not_eq_true', ← ih]
    constructor
    · rintro ⟨h1, h2⟩; exact ⟨(toUpper_eq_self_iff c).1 h1.symm, h2⟩
    · rintro ⟨h1, h2⟩; exact ⟨((toUpper_eq_self_iff c).2 h1).symm, h2⟩

theorem ContainsUnderscore_iff (s : List Char) : ContainsUnderscore s = true ↔ '_' ∈ s := by
  simp [ContainsUnderscore]

theorem Split_ne_nil (s : List Char) : Split s ≠ [] := by
  cases s with
  | nil => simp [Split]
  | cons c rest =>
    rw [Split]
    split
    · simp
    · split <;> simp

/-- Lower-casing keeps a character within the identifier alphabet. -/
theorem ident_toLower (c : Char) (h : c.isAlphanum = true ∨ c = '_') :
    c.toLower.isAlphanum = true ∨ c.toLower = '_' := by
  cases hc : c.isAlpha
  · rw [toLower_of_not_isAlpha c hc]; exact h
  · left; simp [Char.isAlphanum, isAlpha_toLower c hc]

/-- The model of `strings.Split(s, "_")` is the library's `List.splitOn`. -/
theorem Split_eq_splitOn (s : List Char) : Split s = s.splitOn '_' := by
  induction s with
  | nil => rfl
  | cons c rest ih =>
    rw [Split, List.splitOn, List.splitOnP_cons, ← List.splitOn, ← ih]
    by_cases hc : c = '_'
    · simp [hc]
    · simp only [hc, if_false, beq_iff_eq]
      cases hsp : Split rest with
      | nil => exact absurd hsp (Split_ne_nil rest)
      | cons seg segs => rfl

theorem Join_eq_flatten (l : List (List Char)) : Join l = l.flatten := by
  induction l with
  | nil => rfl
  | cons a l ih => simp [Join, ih]

/-- The pieces of `Split s` consist of characters of `s`. -/
theorem mem_of_mem_Split (s : List Char) :
    ∀ seg ∈ Split s, ∀ c ∈ seg, c ∈ s := by
  induction s with
  | nil => intro seg hseg c hc; simp [Split] at hseg; subst hseg; simp at hc
  | cons d rest ih =>
    intro seg hseg c hc
    rw [Split] at hseg
    by_cases hd : d = '_'
    · simp only [hd, if_true, List.mem_cons] at hseg
      rcases hseg with h | h
      · subst h; simp at hc
      · exact List.mem_cons_of_mem _ (ih seg h c hc)
    · simp only [hd, if_false] at hseg
      cases hsp : Split rest with
      | nil => exact absurd hsp (Split_ne_nil rest)
      | cons seg0 segs =>
        simp only [hsp, List.mem_cons] at hseg
        rcases hseg with h | h
        · subst h
          rcases List.mem_cons.1 hc with h1 | h1
          · subst h1; simp
          · exact List.mem_cons_of_mem _ (ih seg0 (by rw [hsp]; simp) c h1)
        · exact List.mem_cons_of_mem _ (ih seg (by rw [hsp]; simp [h]) c hc)

/-- C10. On identifiers made of ASCII letters, digits and underscores, `toCamel` equals
its reference definition `toCamelRef`: without underscore, an entirely upper-case
identifier (one without lower-case letter) is lower-cased and its first letter
capitalised, and any other identifier has only its first letter capitalised, the
remaining characters keeping their case; with underscores, the result is the
concatenation, without separators, of the underscore-separated segments, each with its
first letter upper-cased and the rest lower-cased. "First letter" is the first ASCII
letter of the identifier or segment. -/
theorem toCamel_eq_reference (s : List Char)
    (h : ∀ c ∈ s, c.isAlphanum = true ∨ c = '_') : toCamel s = toCamelRef s := by
  unfold toCamel toCamelRef
  by_cases hu : '_' ∈ s
  · have hcu : ContainsUnderscore s = true := (ContainsUnderscore_iff s).2 hu
    simp only [hcu, hu, Bool.not_true, Bool.false_eq_true, if_false, if_true]
    rw [Join_eq_flatten, ← Split_eq_splitOn]
    congr 1
    apply List.map_congr_left
    intro seg hseg
    exact caser_ident seg (fun c hc => h c (mem_of_mem_Split s seg hseg c hc))
  · have hcu : ContainsUnderscore s = false := by
      cases hb : ContainsUnderscore s
      · rfl
      · exact absurd ((ContainsUnderscore_iff s).1 hb) hu
    simp only [hcu, hu, Bool.not_false, if_true, if_false]
    by_cases ha : isAllUpper s = true
    · have : s = ToUpper s := (eq_ToUpper_iff s).2 ha
      rw [if_pos this, if_pos ha]
      apply noLowerCaser_ident
      intro c hc
      obtain ⟨d, hd, rfl⟩ := List.mem_map.1 hc
      exact ident_toLower d (h d hd)
    · have : ¬ s = ToUpper s := fun h2 => ha ((eq_ToUpper_iff s).1 h2)
      rw [if_neg this, if_neg ha]
      exact noLowerCaser_ident s h

/-- C10, evaluated: `USER_NOT_FOUND` is an identifier, `toCamel` agrees with the
reference on it, and the result is `UserNotFound`. -/
theorem toCamel_eq_reference_witness :
    (∀ c ∈ "USER_NOT_FOUND".toList, c.isAlphanum = true ∨ c = '_') ∧
    toCamel "USER_NOT_FOUND".toList = toCamelRef "USER_NOT_FOUND".toList ∧
    toCamelRef "USER_NOT_FOUND".toList = "UserNotFound".toList :=
  ⟨by decide, toCamel_eq_reference "USER_NOT_FOUND".toList (by decide), by decide⟩

/-- The examples of the specification, evaluated on the code. -/
theorem toCamel_examples :
    toCamel "FOO".toList = "Foo".toList ∧
    toCamel "foo_bar".toList = "FooBar".toList ∧
    toCamel "FOO_BAR".toList = "FooBar".toList ∧
    toCamel "USER_NOT_FOUND".toList = "UserNotFound".toList ∧
    toCamel "fooBar".toList = "FooBar".toList := by
  decide

/-! ## Theorems, part 3: generated client and actor -/

namespace Reenter

/-- On an actor whose grain context is set, the calls of the continuations do not
panic and each sends exactly one response. -/
theorem runContinuations_done {S Q0 R0 Q1 R1 : Type} (cl : ClusterPkg) (a : HelloActor S)
    (gctx : GrainContext) (hctx : a.ctx = some gctx) (calls : List (Continuation R0)) :
    runContinuations cl a calls
      = (Run.done (calls.map (fun c => Event.Respond (continuationReply cl c))) :
          Run (List (Event Q0 R0 Q1 R1))) := by
  induction calls with
  | nil => rfl
  | cons c rest ih =>
    cases c <;>
      simp [runContinuations, respond, HelloActor.onError, hctx, ih, continuationReply]

theorem responses_append {Q0 R0 Q1 R1 : Type} (xs ys : List (Event Q0 R0 Q1 R1)) :
    responses (xs ++ ys) = responses xs ++ responses ys := by
  induction xs with
  | nil => rfl
  | cons e rest ih => cases e <;> simp [responses, ih]

theorem businessCalls_append {Q0 R0 Q1 R1 : Type} (xs ys : List (Event Q0 R0 Q1 R1)) :
    businessCalls (xs ++ ys) = businessCalls xs + businessCalls ys := by
  induction xs with
  | nil => simp [businessCalls]
  | cons e rest ih => cases e <;> simp [businessCalls, ih] <;> omega

theorem responses_map_Respond {Q0 R0 Q1 R1 α : Type} (f : α → Reply R0 R1) (l : List α) :
    responses (l.map (fun c => (Event.Respond (f c) : Event Q0 R0 Q1 R1))) = l.map f := by
  induction l with
  | nil => rfl
  | cons v rest ih => simp [responses, ih]

theorem businessCalls_map_Respond {Q0 R0 Q1 R1 α : Type} (f : α → Reply R0 R1) (l : List α) :
    businessCalls (l.map (fun c => (Event.Respond (f c) : Event Q0 R0 Q1 R1))) = 0 := by
  induction l with
  | nil => rfl
  | cons v rest ih => simp [businessCalls, ih]

/-- The reentrant case of `Receive` on an initialised actor, payload decoded. -/
theorem Receive_SayHello {S Q0 R0 Q1 R1 : Type} (cl : ClusterPkg)
    (codec0 : Codec GoError Q0) (codec1 : Codec GoError Q1) (impl : Hello S Q0 R0 Q1 R1)
    (factory : Option (Unit → Option S)) (a : HelloActor S) (s s1 : S) (gctx : GrainContext)
    (m : GrainRequest) (req : Q0) (calls : List (Continuation R0)) (err : Option GoError)
    (hinner : a.inner = some s) (hctx : a.ctx = some gctx) (hidx : m.MethodIndex = 0)
    (hdec : codec0.Unmarshal m.MessageData = (req, none))
    (hbiz : impl.SayHello s req a.ctx = (s1, calls, err)) :
    HelloActor.Receive cl codec0 codec1 impl factory a (Message.GrainRequest (some m))
      = Run.done ({ a with inner := some s1 },
          [Event.SayHello req] ++ calls.map (fun c => Event.Respond (continuationReply cl c))
            ++ (match err with
                | none => []
                | some e => [Event.Respond (Reply.GrainErrorResponse (cl.FromError (some e)))])) := by
  cases err <;>
    simp [HelloActor.Receive, hidx, hdec, hinner, hbiz,
      runContinuations_done cl a gctx hctx calls]

/-- The blocking case of `Receive` on an initialised actor, payload decoded. -/
theorem Receive_Dowork {S Q0 R0 Q1 R1 : Type} (cl : ClusterPkg)
    (codec0 : Codec GoError Q0) (codec1 : Codec GoError Q1) (impl : Hello S Q0 R0 Q1 R1)
    (factory : Option (Unit → Option S)) (a : HelloActor S) (s s1 : S)
    (m : GrainRequest) (req : Q1) (r0 : Option R1) (err : Option GoError)
    (hinner : a.inner = some s) (hidx : m.MethodIndex = 1)
    (hdec : codec1.Unmarshal m.MessageData = (req, none))
    (hbiz : impl.Dowork s req a.ctx = (s1, r0, err)) :
    HelloActor.Receive cl codec0 codec1 impl factory a (Message.GrainRequest (some m))
      = Run.done ({ a with inner := some s1 },
          [Event.Dowork req,
           Event.Respond (match err with
                          | some e => Reply.GrainErrorResponse (cl.FromError (some e))
                          | none => Reply.DoworkResponse r0)]) := by
  cases err <;> simp [HelloActor.Receive, hidx, hdec, hinner, hbiz]

/-- The decode-failure path of `Receive`, either method. -/
theorem Receive_decode_failure {S Q0 R0 Q1 R1 : Type} (cl : ClusterPkg)
    (codec0 : Codec GoError Q0) (codec1 : Codec GoError Q1) (impl : Hello S Q0 R0 Q1 R1)
    (factory : Option (Unit → Option S)) (a : HelloActor S) (m : GrainRequest) :
    (∀ (req : Q0) (err : GoError), m.MethodIndex = 0 →
      codec0.Unmarshal m.MessageData = (req, some err) →
      HelloActor.Receive cl codec0 codec1 impl factory a (Message.GrainRequest (some m))
        = Run.done (a,
            [Event.LogError "[Grain] SayHello(SayHelloRequest) proto.Unmarshal failed." err,
             Event.Respond (Reply.GrainErrorResponse (some
               ((NewGrainErrorResponse ErrorReason.INVALID_ARGUMENT (err.Error cl)).WithMetadata
                 [("argument", codec0.String req)])))])) ∧
    (∀ (req : Q1) (err : GoError), m.MethodIndex = 1 →
      codec1.Unmarshal m.MessageData = (req, some err) →
      HelloActor.Receive cl codec0 codec1 impl factory a (Message.GrainRequest (some m))
        = Run.done (a,
            [Event.LogError "[Grain] Dowork(DoworkRequest) proto.Unmarshal failed." err,
             Event.Respond (Reply.GrainErrorResponse (some
               ((NewGrainErrorResponse ErrorReason.INVALID_ARGUMENT (err.Error cl)).WithMetadata
                 [("argument", codec1.String req)])))])) := by
  constructor
  · intro req err hidx hdec
    simp [HelloActor.Receive, hidx, hdec]
  · intro req err hidx hdec
    simp [HelloActor.Receive, hidx, hdec]

end Reenter

namespace ClusterGrain

/-- The blocking case of `Receive` on an initialised actor, payload decoded. -/
theorem Receive_SayHello_blocking {S Q R : Type} (codec : Codec GoError Q)
    (impl : Hello S Q R)
    (factory : Option (Unit → Option S)) (a : HelloActor S) (s s1 : S)
    (m : GrainRequest) (req : Q) (r0 : Option R) (err : Option GoError)
    (hinner : a.inner = some s) (hidx : m.MethodIndex = 0)
    (hdec : codec.Unmarshal m.MessageData = (req, none))
    (hbiz : impl.SayHello s req a.ctx = (s1, r0, err)) :
    HelloActor.Receive codec impl factory a (Message.GrainRequest (some m))
      = Run.done ({ a with inner := some s1 },
          [Event.SayHello req,
           Event.Respond (match err with
                          | some e => Reply.GrainErrorResponse (some { Err := e.Error })
                          | none => Reply.HelloResponse r0)]) := by
  cases err <;> simp [HelloActor.Receive, hidx, hdec, hinner, hbiz]

end ClusterGrain

/-! ### Claims about the generated client and actor -/

/-- C2. Round trip between the generated client and the generated dispatcher
(testdata/reenter). For a codec with `Unmarshal(Marshal(r)) = r` at the requests `r0`
and `r1`: the client stub of `SayHello` hands the transport the envelope
`{MethodIndex: 0, MessageData: Marshal(r0)}` and that of `Dowork` the envelope
`{MethodIndex: 1, MessageData: Marshal(r1)}`; and `Receive` of an initialised actor,
given the first envelope, invokes `SayHello` with the request `r0` and no other business
method, and given the second, invokes `Dowork` with the request `r1` and no other. -/
theorem client_envelope_reaches_same_method {S Q0 R0 Q1 R1 : Type} (cl : Reenter.ClusterPkg)
    (codec0 : Codec Reenter.GoError Q0) (codec1 : Codec Reenter.GoError Q1)
    (impl : Reenter.Hello S Q0 R0 Q1 R1) (factory : Option (Unit → Option S))
    (a : Reenter.HelloActor S) (s : S) (gctx : GrainContext)
    (r0 : Q0) (b0 : Bytes) (r1 : Q1) (b1 : Bytes)
    (hinner : a.inner = some s) (hctx : a.ctx = some gctx)
    (hm0 : codec0.Marshal (some r0) = (b0, none)) (hu0 : codec0.Unmarshal b0 = (r0, none))
    (hm1 : codec1.Marshal (some r1) = (b1, none)) (hu1 : codec1.Unmarshal b1 = (r1, none)) :
    (∀ g : Reenter.HelloGrainClient R0 R1,
      Reenter.HelloGrainClient.SayHello codec0 g (some r0)
        = (match g.cluster.Request g.Identity "Hello" { MethodIndex := 0, MessageData := b0 } with
           | (_, some err) => Run.done (none, some (Reenter.GoError.wrap "error request" err))
           | (resp, none) => Reenter.sayHelloResult resp)) ∧
    (∀ g : Reenter.HelloGrainClient R0 R1,
      Reenter.HelloGrainClient.Dowork codec1 g (some r1)
        = (match g.cluster.Request g.Identity "Hello" { MethodIndex := 1, MessageData := b1 } with
           | (_, some err) => Run.done (none, some (Reenter.GoError.wrap "error request" err))
           | (resp, none) => Reenter.doworkResult resp)) ∧
    (∃ a1 es, Reenter.HelloActor.Receive cl codec0 codec1 impl factory a
          (Message.GrainRequest (some { MethodIndex := 0, MessageData := b0 }))
        = Run.done (a1, Reenter.Event.SayHello r0 :: es) ∧ Reenter.businessCalls es = 0) ∧
    (∃ a1 es, Reenter.HelloActor.Receive cl codec0 codec1 impl factory a
          (Message.GrainRequest (some { MethodIndex := 1, MessageData := b1 }))
        = Run.done (a1, Reenter.Event.Dowork r1 :: es) ∧ Reenter.businessCalls es = 0) := by
  refine ⟨?_, ?_, ?_, ?_⟩
  · intro g
    simp only [Reenter.HelloGrainClient.SayHello, hm0]
  · intro g
    simp only [Reenter.HelloGrainClient.Dowork, hm1]
  · rcases hb : impl.SayHello s r0 a.ctx with ⟨s1, calls, err⟩
    refine ⟨{ a with inner := some s1 },
      calls.map (fun c => Reenter.Event.Respond (Reenter.continuationReply cl c))
        ++ (match err with
            | none => []
            | some e => [Reenter.Event.Respond
                (Reenter.Reply.GrainErrorResponse (cl.FromError (some e)))]), ?_, ?_⟩
    · rw [Reenter.Receive_SayHello cl codec0 codec1 impl factory a s s1 gctx
        { MethodIndex := 0, MessageData := b0 } r0 calls err hinner hctx rfl hu0 hb]
      rfl
    · rw [Reenter.businessCalls_append, Reenter.businessCalls_map_Respond]
      cases err <;> rfl
  · rcases hb : impl.Dowork s r1 a.ctx with ⟨s1, r, err⟩
    exact ⟨{ a with inner := some s1 }, _,
      Reenter.Receive_Dowork cl codec0 codec1 impl factory a s s1
        { MethodIndex := 1, MessageData := b1 } r1 r err hinner rfl hu1 hb, rfl⟩

/-- C2, evaluated: with the sample codec and the requests `hi` and `job`, the sample
actor given the envelope of `Dowork` invokes `Dowork` with `job`. -/
theorem client_envelope_reaches_same_method_witness :
    ∃ a1 es, Reenter.HelloActor.Receive sampleCluster (sampleCodec Reenter.GoError.other)
        (sampleCodec Reenter.GoError.other) sampleHello none sampleActor
        (Message.GrainRequest (some { MethodIndex := 1, MessageData := [10, 3, 106, 111, 98] }))
      = Run.done (a1, Reenter.Event.Dowork "job" :: es) ∧ Reenter.businessCalls es = 0 :=
  (client_envelope_reaches_same_method sampleCluster (sampleCodec Reenter.GoError.other)
    (sampleCodec Reenter.GoError.other) sampleHello none sampleActor 0 { Identity := "grain-1" }
    "hi" [10, 2, 104, 105] "job" [10, 3, 106, 111, 98]
    rfl rfl (by decide) (by decide) (by decide) (by decide)).2.2.2

/-- C5. Decode failure in the generated dispatcher (testdata/reenter): for a request
with method index 0 or 1 whose payload fails to decode, `Receive` returns, sends exactly
one response, that response is an error response built by
`cluster.NewGrainErrorResponse(cluster.ErrorReason_INVALID_ARGUMENT, ...)`, so with reason
`INVALID_ARGUMENT`, no business method is invoked, and the actor is unchanged. This
holds in every state of the actor, initialised or not. -/
theorem decode_failure_single_invalid_argument {S Q0 R0 Q1 R1 : Type}
    (cl : Reenter.ClusterPkg) (codec0 : Codec Reenter.GoError Q0)
    (codec1 : Codec Reenter.GoError Q1) (impl : Reenter.Hello S Q0 R0 Q1 R1)
    (factory : Option (Unit → Option S)) (a : Reenter.HelloActor S) (m : GrainRequest)
    (hfail : (m.MethodIndex = 0 ∧ (codec0.Unmarshal m.MessageData).2 ≠ none) ∨
             (m.MethodIndex = 1 ∧ (codec1.Unmarshal m.MessageData).2 ≠ none)) :
    ∃ es resp,
      Reenter.HelloActor.Receive cl codec0 codec1 impl factory a
          (Message.GrainRequest (some m)) = Run.done (a, es) ∧
      Reenter.responses es = [Reenter.Reply.GrainErrorResponse (some resp)] ∧
      (∃ message metadata, resp =
        (Reenter.NewGrainErrorResponse Reenter.ErrorReason.INVALID_ARGUMENT message).WithMetadata
          metadata) ∧
      resp.Reason = Reenter.ErrorReason.INVALID_ARGUMENT ∧
      Reenter.businessCalls es = 0 := by
  have key := Reenter.Receive_decode_failure cl codec0 codec1 impl factory a m
  rcases hfail with ⟨hidx, hne⟩ | ⟨hidx, hne⟩
  · rcases hu : codec0.Unmarshal m.MessageData with ⟨req, _ | err⟩
    · rw [hu] at hne; exact absurd rfl hne
    · exact ⟨_, _, key.1 req err hidx hu, rfl, ⟨_, _, rfl⟩, rfl, rfl⟩
  · rcases hu : codec1.Unmarshal m.MessageData with ⟨req, _ | err⟩
    · rw [hu] at hne; exact absurd rfl hne
    · exact ⟨_, _, key.2 req err hidx hu, rfl, ⟨_, _, rfl⟩, rfl, rfl⟩

/-- C5, evaluated on a truncated payload for method index 1. -/
theorem decode_failure_single_invalid_argument_witness :
    ∃ es resp,
      Reenter.HelloActor.Receive sampleCluster (sampleCodec Reenter.GoError.other)
          (sampleCodec Reenter.GoError.other) sampleHello none sampleActor
          (Message.GrainRequest (some { MethodIndex := 1, MessageData := [10, 9, 104, 105] }))
        = Run.done (sampleActor, es) ∧
      Reenter.responses es = [Reenter.Reply.GrainErrorResponse (some resp)] ∧
      (∃ message metadata, resp =
        (Reenter.NewGrainErrorResponse Reenter.ErrorReason.INVALID_ARGUMENT message).WithMetadata
          metadata) ∧
      resp.Reason = Reenter.ErrorReason.INVALID_ARGUMENT ∧
      Reenter.businessCalls es = 0 :=
  decode_failure_single_invalid_argument sampleCluster (sampleCodec Reenter.GoError.other)
    (sampleCodec Reenter.GoError.other) sampleHello none sampleActor
    { MethodIndex := 1, MessageData := [10, 9, 104, 105] } (Or.inr (by decide))

/-- C6, refuted as stated: for the truncated payload `[10, 9, 104, 105]` (a field
declared 9 bytes long with 2 bytes present) and method index 0, the response carries the
metadata `argument = ""`, the string form of the request left empty by the failed
decode; the string form of the payload is not empty and does not occur in it. -/
theorem decode_failure_metadata_is_not_payload :
    Reenter.HelloActor.Receive sampleCluster (sampleCodec Reenter.GoError.other)
        (sampleCodec Reenter.GoError.other) sampleHello none sampleActor
        (Message.GrainRequest (some { MethodIndex := 0, MessageData := [10, 9, 104, 105] }))
      = Run.done (sampleActor,
          [Reenter.Event.LogError "[Grain] SayHello(SayHelloRequest) proto.Unmarshal failed."
             (Reenter.GoError.other "proto: cannot parse invalid wire-format data"),
           Reenter.Event.Respond (Reenter.Reply.GrainErrorResponse (some
             { Reason := Reenter.ErrorReason.INVALID_ARGUMENT,
               Message := "proto: cannot parse invalid wire-format data",
               Metadata := [("argument", "")] }))]) ∧
    (bytesToString [10, 9, 104, 105]).length = 4 ∧
    ¬ ((bytesToString [10, 9, 104, 105]).toList <:+: "".toList) := by
  decide

/-- C6, amended. For a request with method index 0 or 1 whose payload fails to decode,
the invalid-argument response sent by `Receive` is given, through `WithMetadata`, the
mapping with the single key `argument` whose value is `req.String()`: the string form
of the request message as the failed decode left it, not of `msg.MessageData`. That
entry is the whole metadata of the response. -/
theorem decode_failure_metadata_is_request_string {S Q0 R0 Q1 R1 : Type}
    (cl : Reenter.ClusterPkg) (codec0 : Codec Reenter.GoError Q0)
    (codec1 : Codec Reenter.GoError Q1) (impl : Reenter.Hello S Q0 R0 Q1 R1)
    (factory : Option (Unit → Option S)) (a : Reenter.HelloActor S) (m : GrainRequest)
    (req0 : Q0) (req1 : Q1) (err : Reenter.GoError)
    (hfail : (m.MethodIndex = 0 ∧ codec0.Unmarshal m.MessageData = (req0, some err)) ∨
             (m.MethodIndex = 1 ∧ codec1.Unmarshal m.MessageData = (req1, some err))) :
    ∃ es resp,
      Reenter.HelloActor.Receive cl codec0 codec1 impl factory a
          (Message.GrainRequest (some m)) = Run.done (a, es) ∧
      Reenter.responses es = [Reenter.Reply.GrainErrorResponse (some resp)] ∧
      resp = (Reenter.NewGrainErrorResponse Reenter.ErrorReason.INVALID_ARGUMENT
          (err.Error cl)).WithMetadata
        [("argument", if m.MethodIndex = 0 then codec0.String req0 else codec1.String req1)] ∧
      resp.Metadata
        = [("argument", if m.MethodIndex = 0 then codec0.String req0 else codec1.String req1)] := by
  have key := Reenter.Receive_decode_failure cl codec0 codec1 impl factory a m
  rcases hfail with ⟨hidx, hu⟩ | ⟨hidx, hu⟩
  · refine ⟨_, _, key.1 req0 err hidx hu, rfl, ?_, ?_⟩
    · simp [hidx]
    · simp [Reenter.GrainErrorResponse.WithMetadata, Reenter.NewGrainErrorResponse, hidx]
  · refine ⟨_, _, key.2 req1 err hidx hu, rfl, ?_, ?_⟩
    · simp [hidx]
    · simp [Reenter.GrainErrorResponse.WithMetadata, Reenter.NewGrainErrorResponse, hidx]

/-- C6 amended, evaluated on the truncated payload for method index 0. -/
theorem decode_failure_metadata_is_request_string_witness :
    ∃ es resp,
      Reenter.HelloActor.Receive sampleCluster (sampleCodec Reenter.GoError.other)
          (sampleCodec Reenter.GoError.other) sampleHello none sampleActor
          (Message.GrainRequest (some { MethodIndex := 0, MessageData := [10, 9, 104, 105] }))
        = Run.done (sampleActor, es) ∧
      Reenter.responses es = [Reenter.Reply.GrainErrorResponse (some resp)] ∧
      resp = (Reenter.NewGrainErrorResponse Reenter.ErrorReason.INVALID_ARGUMENT
          "proto: cannot parse invalid wire-format data").WithMetadata [("argument", "")] ∧
      resp.Metadata = [("argument", "")] :=
  decode_failure_metadata_is_request_string sampleCluster (sampleCodec Reenter.GoError.other)
    (sampleCodec Reenter.GoError.other) sampleHello none sampleActor
    { MethodIndex := 0, MessageData := [10, 9, 104, 105] } "" ""
    (Reenter.GoError.other "proto: cannot parse invalid wire-format data")
    (Or.inl (by decide))

/-- C7. Blocking dispatch (`Dowork`, index 1, testdata/reenter; `SayHello`, index 0,
examples/cluster-grain). On an actor holding its business object, for a request whose
payload decodes, `Receive` invokes the business method exactly once, with the decoded
request, and then sends exactly one response: the error converted to a wire error
response (`cluster.FromError(err)`, respectively `GrainErrorResponse{Err: err.Error()}`)
if the business method returned a non-nil error, and otherwise the returned message
itself. -/
theorem blocking_dispatch_one_call_one_response {S Q0 R0 Q1 R1 T Q R : Type}
    (cl : Reenter.ClusterPkg) (codec0 : Codec Reenter.GoError Q0)
    (codec1 : Codec Reenter.GoError Q1) (impl : Reenter.Hello S Q0 R0 Q1 R1)
    (factory : Option (Unit → Option S)) (a : Reenter.HelloActor S) (s s1 : S)
    (m : GrainRequest) (req : Q1) (r0 : Option R1) (err : Option Reenter.GoError)
    (codec : Codec ClusterGrain.GoError Q) (implB : ClusterGrain.Hello T Q R)
    (factoryB : Option (Unit → Option T)) (b : ClusterGrain.HelloActor T) (t t1 : T)
    (n : GrainRequest) (reqB : Q) (rB : Option R) (errB : Option ClusterGrain.GoError)
    (hinner : a.inner = some s) (hidx : m.MethodIndex = 1)
    (hdec : codec1.Unmarshal m.MessageData = (req, none))
    (hbiz : impl.Dowork s req a.ctx = (s1, r0, err))
    (hinnerB : b.inner = some t) (hidxB : n.MethodIndex = 0)
    (hdecB : codec.Unmarshal n.MessageData = (reqB, none))
    (hbizB : implB.SayHello t reqB b.ctx = (t1, rB, errB)) :
    Reenter.HelloActor.Receive cl codec0 codec1 impl factory a (Message.GrainRequest (some m))
      = Run.done ({ a with inner := some s1 },
          [Reenter.Event.Dowork req,
           Reenter.Event.Respond
             (match err with
              | some e => Reenter.Reply.GrainErrorResponse (cl.FromError (some e))
              | none => Reenter.Reply.DoworkResponse r0)]) ∧
    ClusterGrain.HelloActor.Receive codec implB factoryB b (Message.GrainRequest (some n))
      = Run.done ({ b with inner := some t1 },
          [ClusterGrain.Event.SayHello reqB,
           ClusterGrain.Event.Respond
             (match errB with
              | some e => ClusterGrain.Reply.GrainErrorResponse (some { Err := e.Error })
              | none => ClusterGrain.Reply.HelloResponse rB)]) :=
  ⟨Reenter.Receive_Dowork cl codec0 codec1 impl factory a s s1 m req r0 err hinner hidx hdec hbiz,
   ClusterGrain.Receive_SayHello_blocking codec implB factoryB b t t1 n reqB rB errB
     hinnerB hidxB hdecB hbizB⟩

/-- C7, evaluated: `Dowork` on `job` answers `done job`; the blocking `SayHello` on an
empty request answers the wire error made from the business error. -/
theorem blocking_dispatch_one_call_one_response_witness :
    Reenter.HelloActor.Receive sampleCluster (sampleCodec Reenter.GoError.other)
        (sampleCodec Reenter.GoError.other) sampleHello none sampleActor
        (Message.GrainRequest (some { MethodIndex := 1, MessageData := [10, 3, 106, 111, 98] }))
      = Run.done ({ sampleActor with inner := some 1 },
          [Reenter.Event.Dowork "job",
           Reenter.Event.Respond (Reenter.Reply.DoworkResponse (some "done job"))]) ∧
    ClusterGrain.HelloActor.Receive (sampleCodec ClusterGrain.GoError.other)
        sampleHelloBlocking none sampleActorBlocking
        (Message.GrainRequest (some { MethodIndex := 0, MessageData := [] }))
      = Run.done ({ sampleActorBlocking with inner := some 1 },
          [ClusterGrain.Event.SayHello "",
           ClusterGrain.Event.Respond
             (ClusterGrain.Reply.GrainErrorResponse (some { Err := "empty request" }))]) :=
  blocking_dispatch_one_call_one_response sampleCluster (sampleCodec Reenter.GoError.other)
    (sampleCodec Reenter.GoError.other) sampleHello none sampleActor 0 1
    { MethodIndex := 1, MessageData := [10, 3, 106, 111, 98] } "job" (some "done job") none
    (sampleCodec ClusterGrain.GoError.other) sampleHelloBlocking none sampleActorBlocking 0 1
    { MethodIndex := 0, MessageData := [] } "" none
    (some (ClusterGrain.GoError.other "empty request"))
    rfl rfl (by decide) (by decide) rfl rfl (by decide) (by decide)

/-- C8. Reentrant dispatch (`SayHello`, index 0, testdata/reenter). On an initialised
actor, for a request whose payload decodes, `Receive` invokes `SayHello` once and sends
no response of its own when `SayHello` returns nil: the responses are exactly those of
the calls `SayHello` made to its continuations, none if it made none. When `SayHello`
returns a non-nil error, `Receive` sends exactly one response after those, the converted
wire error. Each call of `respond` and of `onError` sends exactly one response. -/
theorem reentrant_dispatch_no_default_response {S Q0 R0 Q1 R1 : Type}
    (cl : Reenter.ClusterPkg) (codec0 : Codec Reenter.GoError Q0)
    (codec1 : Codec Reenter.GoError Q1) (impl : Reenter.Hello S Q0 R0 Q1 R1)
    (factory : Option (Unit → Option S)) (a : Reenter.HelloActor S) (s s1 : S)
    (gctx : GrainContext) (m : GrainRequest) (req : Q0)
    (calls : List (Reenter.Continuation R0)) (err : Option Reenter.GoError)
    (hinner : a.inner = some s) (hctx : a.ctx = some gctx) (hidx : m.MethodIndex = 0)
    (hdec : codec0.Unmarshal m.MessageData = (req, none))
    (hbiz : impl.SayHello s req a.ctx = (s1, calls, err)) :
    (∃ es, Reenter.HelloActor.Receive cl codec0 codec1 impl factory a
          (Message.GrainRequest (some m)) = Run.done ({ a with inner := some s1 }, es) ∧
      Reenter.businessCalls es = 1 ∧
      Reenter.responses es
        = calls.map (Reenter.continuationReply cl)
          ++ (match err with
              | none => []
              | some e => [Reenter.Reply.GrainErrorResponse (cl.FromError (some e))]) ∧
      (err = none → calls = [] → Reenter.responses es = [])) ∧
    (∀ resp : Option R0,
      (Reenter.respond Reenter.Reply.SayHelloResponse a.ctx resp :
          Run (List (Reenter.Event Q0 R0 Q1 R1)))
        = Run.done [Reenter.Event.Respond (Reenter.Reply.SayHelloResponse resp)]) ∧
    (∀ e : Option Reenter.GoError,
      (Reenter.HelloActor.onError cl a e : Run (List (Reenter.Event Q0 R0 Q1 R1)))
        = Run.done [Reenter.Event.Respond (Reenter.Reply.GrainErrorResponse (cl.FromError e))]) := by
  have hresp : Reenter.responses
      ([Reenter.Event.SayHello req]
        ++ calls.map (fun c => (Reenter.Event.Respond (Reenter.continuationReply cl c) :
              Reenter.Event Q0 R0 Q1 R1))
        ++ (match err with
            | none => []
            | some e => [Reenter.Event.Respond
                (Reenter.Reply.GrainErrorResponse (cl.FromError (some e)))]))
      = calls.map (Reenter.continuationReply cl)
          ++ (match err with
              | none => []
              | some e => [Reenter.Reply.GrainErrorResponse (cl.FromError (some e))]) := by
    rw [Reenter.responses_append, Reenter.responses_append, Reenter.responses_map_Respond]
    cases err <;> rfl
  refine ⟨⟨_, Reenter.Receive_SayHello cl codec0 codec1 impl factory a s s1 gctx m req calls err
      hinner hctx hidx hdec hbiz, ?_, hresp, ?_⟩, ?_, ?_⟩
  · rw [Reenter.businessCalls_append, Reenter.businessCalls_append,
      Reenter.businessCalls_map_Respond]
    cases err <;> rfl
  · intro he hc
    rw [hresp, he, hc]
    rfl
  · intro resp
    simp [Reenter.respond, hctx]
  · intro e
    simp [Reenter.HelloActor.onError, hctx]

/-- C8, evaluated: the sample `SayHello` calls `respond` once and returns nil; the one
response is the one its continuation sent. -/
theorem reentrant_dispatch_no_default_response_witness :
    ∃ es, Reenter.HelloActor.Receive sampleCluster (sampleCodec Reenter.GoError.other)
          (sampleCodec Reenter.GoError.other) sampleHello none sampleActor
          (Message.GrainRequest (some { MethodIndex := 0, MessageData := [10, 2, 104, 105] }))
        = Run.done ({ sampleActor with inner := some 1 }, es) ∧
      Reenter.businessCalls es = 1 ∧
      Reenter.responses es = [Reenter.Reply.SayHelloResponse (some "Hello hi")] ∧
      ((none : Option Reenter.GoError) = none →
        [Reenter.Continuation.respond (some "Hello hi")] = [] → Reenter.responses es = []) :=
  (reentrant_dispatch_no_default_response sampleCluster (sampleCodec Reenter.GoError.other)
    (sampleCodec Reenter.GoError.other) sampleHello none sampleActor 0 1
    { Identity := "grain-1" } { MethodIndex := 0, MessageData := [10, 2, 104, 105] } "hi"
    [Reenter.Continuation.respond (some "Hello hi")] none
    rfl rfl rfl (by decide) (by decide)).1

/-- The type switch of the clients of testdata/reenter is total and classifies every
response as specified. -/
theorem Reenter.client_classification {R0 R1 : Type} (resp : Reenter.Reply R0 R1) :
    (∀ p, resp = Reenter.Reply.SayHelloResponse p →
      Reenter.sayHelloResult resp = Run.done (p, none)) ∧
    (∀ p, resp = Reenter.Reply.DoworkResponse p →
      Reenter.doworkResult resp = Run.done (p, none)) ∧
    (∀ e, resp = Reenter.Reply.GrainErrorResponse (some e) →
      Reenter.sayHelloResult resp = Run.done (none, some (Reenter.GoError.grain (some e))) ∧
      Reenter.doworkResult resp = Run.done (none, some (Reenter.GoError.grain (some e)))) ∧
    (resp = Reenter.Reply.GrainErrorResponse none →
      Reenter.sayHelloResult resp = Run.done (none, none) ∧
      Reenter.doworkResult resp = Run.done (none, none)) ∧
    ((∀ p, resp ≠ Reenter.Reply.SayHelloResponse p) →
      (∀ p, resp ≠ Reenter.Reply.GrainErrorResponse p) →
      Reenter.sayHelloResult resp = Run.done (none, some
        (Reenter.GoError.other ("unknown response type " ++ resp.typeName)))) ∧
    ((∀ p, resp ≠ Reenter.Reply.DoworkResponse p) →
      (∀ p, resp ≠ Reenter.Reply.GrainErrorResponse p) →
      Reenter.doworkResult resp = Run.done (none, some
        (Reenter.GoError.other ("unknown response type " ++ resp.typeName)))) := by
  refine ⟨?_, ?_, ?_, ?_, ?_, ?_⟩
  · rintro p rfl; rfl
  · rintro p rfl; rfl
  · rintro e rfl; exact ⟨rfl, rfl⟩
  · rintro rfl; exact ⟨rfl, rfl⟩
  · intro h1 h2
    cases resp with
    | SayHelloResponse p => exact absurd rfl (h1 p)
    | GrainErrorResponse p => exact absurd rfl (h2 p)
    | nilInterface => rfl
    | DoworkResponse p => rfl
    | other t => rfl
  · intro h1 h2
    cases resp with
    | DoworkResponse p => exact absurd rfl (h1 p)
    | GrainErrorResponse p => exact absurd rfl (h2 p)
    | nilInterface => rfl
    | SayHelloResponse p => rfl
    | other t => rfl

/-- The type switch of the client of examples/cluster-grain panics on exactly one
response, the nil `*cluster.GrainErrorResponse`. -/
theorem ClusterGrain.sayHelloResult_panic_iff {R : Type} (resp : ClusterGrain.Reply R) :
    (∃ reason, ClusterGrain.sayHelloResult resp = Run.panic reason)
      ↔ resp = ClusterGrain.Reply.GrainErrorResponse none := by
  constructor
  · rintro ⟨reason, h⟩
    cases resp with
    | GrainErrorResponse p =>
      cases p with
      | none => rfl
      | some e => simp [ClusterGrain.sayHelloResult] at h
    | nilInterface => simp [ClusterGrain.sayHelloResult] at h
    | HelloResponse p => simp [ClusterGrain.sayHelloResult] at h
    | other t => simp [ClusterGrain.sayHelloResult] at h
  · rintro rfl
    exact ⟨_, rfl⟩

/-- C9, the failing input evaluated. The transport succeeds and returns the nil
`*cluster.GrainErrorResponse`: `HelloGrainClient.SayHello` of examples/cluster-grain
panics on `msg.Err`, whereas `SayHello` and `Dowork` of testdata/reenter return
`(nil, nil)`. -/
theorem cluster_grain_client_panics_on_nil_error_response :
    ClusterGrain.HelloGrainClient.SayHello (sampleCodec ClusterGrain.GoError.other)
        ({ Identity := "grain-1",
           cluster := { Request := fun _ _ _ => (ClusterGrain.Reply.GrainErrorResponse none, none) } } :
          ClusterGrain.HelloGrainClient String)
        (some "hi")
      = Run.panic "nil pointer dereference: msg.Err" ∧
    Reenter.HelloGrainClient.SayHello (sampleCodec Reenter.GoError.other)
        ({ Identity := "grain-1",
           cluster := { Request := fun _ _ _ => (Reenter.Reply.GrainErrorResponse none, none) } } :
          Reenter.HelloGrainClient String String)
        (some "hi")
      = Run.done (none, none) ∧
    Reenter.HelloGrainClient.Dowork (sampleCodec Reenter.GoError.other)
        ({ Identity := "grain-1",
           cluster := { Request := fun _ _ _ => (Reenter.Reply.GrainErrorResponse none, none) } } :
          Reenter.HelloGrainClient String String)
        (some "hi")
      = Run.done (none, none) := by
  decide


/-! ## Theorems, part 4: algebra of `toCamel` -/

theorem isAlpha_toUpper (c : Char) (h : c.isAlpha = true) : c.toUpper.isAlpha = true := by
  rw [isAlpha_iff] at h ⊢
  rw [toUpper_toNat]
  split <;> omega

theorem toUpper_toUpper (c : Char) : c.toUpper.toUpper = c.toUpper := by
  apply char_eq_of_toNat_eq
  rw [toUpper_toNat, toUpper_toNat]
  split_ifs <;> omega

theorem toLower_toUpper (c : Char) : c.toUpper.toLower = c.toLower := by
  apply char_eq_of_toNat_eq
  rw [toLower_toNat, toLower_toNat, toUpper_toNat]
  split_ifs <;> omega

theorem toLower_toLower (c : Char) : c.toLower.toLower = c.toLower := by
  apply char_eq_of_toNat_eq
  rw [toLower_toNat, toLower_toNat]
  split_ifs <;> omega

/-- Upper-casing does not create or remove an underscore. -/
theorem toUpper_eq_underscore_iff (c : Char) : c.toUpper = '_' ↔ c = '_' := by
  constructor
  · intro h
    have h2 := congrArg Char.toNat h
    rw [toUpper_toNat] at h2
    have h3 : ('_' : Char).toNat = 95 := by decide
    apply char_eq_of_toNat_eq
    rw [h3] at h2 ⊢
    split_ifs at h2 <;> omega
  · rintro rfl; decide

/-- Lower-casing does not create or remove an underscore. -/
theorem toLower_eq_underscore_iff (c : Char) : c.toLower = '_' ↔ c = '_' := by
  constructor
  · intro h
    have h2 := congrArg Char.toNat h
    rw [toLower_toNat] at h2
    have h3 : ('_' : Char).toNat = 95 := by decide
    apply char_eq_of_toNat_eq
    rw [h3] at h2 ⊢
    split_ifs at h2 <;> omega
  · rintro rfl; decide

/-- Upper-casing keeps a character within the identifier alphabet. -/
theorem ident_toUpper (c : Char) (h : c.isAlphanum = true ∨ c = '_') :
    c.toUpper.isAlphanum = true ∨ c.toUpper = '_' := by
  rcases h with h | h
  · left
    simp only [Char.isAlphanum, Bool.or_eq_true, isAlpha_iff, isDigit_iff] at h ⊢
    rw [toUpper_toNat]
    split_ifs <;> omega
  · right; subst h; decide

/-- The pieces of a string whose characters were mapped by `f` are the mapped pieces,
when `f` neither creates nor removes an underscore. -/
theorem Split_map (f : Char → Char) (hf : ∀ c, f c = '_' ↔ c = '_') (s : List Char) :
    Split (s.map f) = (Split s).map (List.map f) := by
  induction s with
  | nil => rfl
  | cons c rest ih =>
    rw [List.map_cons, Split, Split, ih]
    by_cases hc : c = '_'
    · simp [hc, (hf '_').2 rfl]
    · have hfc : ¬ f c = '_' := fun h => hc ((hf c).1 h)
      simp only [hc, hfc, if_false]
      cases hsp : Split rest with
      | nil => exact absurd hsp (Split_ne_nil rest)
      | cons seg segs => rfl

/-- With an underscore present, `toCamel` joins the pieces, each lower-cased except for
its capitalised first letter. -/
theorem toCamel_of_underscore (s : List Char) (h : ∀ c ∈ s, c.isAlphanum = true ∨ c = '_')
    (hu : '_' ∈ s) :
    toCamel s = Join ((Split s).map (fun seg => capitalizeFirstLetter (seg.map Char.toLower))) := by
  unfold toCamel
  have hcu : ContainsUnderscore s = true := (ContainsUnderscore_iff s).2 hu
  simp only [hcu, Bool.not_true, Bool.false_eq_true, if_false]
  congr 1
  apply List.map_congr_left
  intro seg hseg
  exact caser_ident seg (fun c hc => h c (mem_of_mem_Split s seg hseg c hc))

/-- C12. Case stability with separators: for every identifier `s` of ASCII letters,
digits and underscores that contains at least one underscore,
`toCamel(s) = toCamel(upper(s)) = toCamel(lower(s))`. -/
theorem toCamel_case_stable (s : List Char) (h : ∀ c ∈ s, c.isAlphanum = true ∨ c = '_')
    (hu : '_' ∈ s) :
    toCamel s = toCamel (ToUpper s) ∧ toCamel s = toCamel (ToLower s) := by
  have hU : ∀ c ∈ ToUpper s, c.isAlphanum = true ∨ c = '_' := by
    intro c hc
    obtain ⟨d, hd, rfl⟩ := List.mem_map.1 hc
    exact ident_toUpper d (h d hd)
  have hL : ∀ c ∈ ToLower s, c.isAlphanum = true ∨ c = '_' := by
    intro c hc
    obtain ⟨d, hd, rfl⟩ := List.mem_map.1 hc
    exact ident_toLower d (h d hd)
  have huU : '_' ∈ ToUpper s := List.mem_map.2 ⟨'_', hu, by decide⟩
  have huL : '_' ∈ ToLower s := List.mem_map.2 ⟨'_', hu, by decide⟩
  rw [toCamel_of_underscore s h hu, toCamel_of_underscore _ hU huU,
    toCamel_of_underscore _ hL huL]
  unfold ToUpper ToLower
  rw [Split_map _ toUpper_eq_underscore_iff, Split_map _ toLower_eq_underscore_iff,
    List.map_map, List.map_map]
  constructor
  · congr 1
    apply List.map_congr_left
    intro seg _
    simp only [Function.comp_apply, List.map_map]
    congr 1
    apply List.map_congr_left
    intro c _
    simp [toLower_toUpper]
  · congr 1
    apply List.map_congr_left
    intro seg _
    simp only [Function.comp_apply, List.map_map]
    congr 1
    apply List.map_congr_left
    intro c _
    simp [toLower_toLower]

/-- C12, evaluated: `FOO_BAR` and `foo_bar` normalize to the same `FooBar`. -/
theorem toCamel_case_stable_witness :
    (toCamel "Foo_bar".toList = toCamel (ToUpper "Foo_bar".toList) ∧
      toCamel "Foo_bar".toList = toCamel (ToLower "Foo_bar".toList)) ∧
    ToUpper "Foo_bar".toList = "FOO_BAR".toList ∧
    ToLower "Foo_bar".toList = "foo_bar".toList ∧
    toCamel "FOO_BAR".toList = "FooBar".toList ∧
    toCamel "foo_bar".toList = "FooBar".toList :=
  ⟨toCamel_case_stable "Foo_bar".toList (by decide) (by decide),
   by decide, by decide, by decide, by decide⟩

theorem toLower_eq_self_iff (c : Char) : c.toLower = c ↔ c.isUpper = false := by
  constructor
  · intro h
    have h2 := congrArg Char.toNat h
    rw [toLower_toNat] at h2
    have := isUpper_iff c
    cases hl : c.isUpper
    · rfl
    · rw [hl] at this
      have := this.1 rfl
      rw [if_pos this] at h2
      omega
  · intro h
    apply char_eq_of_toNat_eq
    rw [toLower_toNat]
    have := (isUpper_iff c).not.1 (by simp [h])
    rw [if_neg this]

theorem isAlphanum_toUpper (c : Char) (h : c.isAlphanum = true) :
    c.toUpper.isAlphanum = true := by
  simp only [Char.isAlphanum, Bool.or_eq_true, isAlpha_iff, isDigit_iff] at h ⊢
  rw [toUpper_toNat]
  split_ifs <;> omega

theorem isAlphanum_toLower (c : Char) (h : c.isAlphanum = true) :
    c.toLower.isAlphanum = true := by
  simp only [Char.isAlphanum, Bool.or_eq_true, isAlpha_iff, isDigit_iff] at h ⊢
  rw [toLower_toNat]
  split_ifs <;> omega

theorem isAlpha_toLower_eq (c : Char) : c.toLower.isAlpha = c.isAlpha := by
  cases h : c.isAlpha
  · rw [toLower_of_not_isAlpha c h]; exact h
  · exact isAlpha_toLower c h

/-- Capitalising the first letter twice is capitalising it once. -/
theorem capitalizeFirstLetter_idem (u : List Char) :
    capitalizeFirstLetter (capitalizeFirstLetter u) = capitalizeFirstLetter u := by
  induction u with
  | nil => rfl
  | cons c rest ih =>
    cases hc : c.isAlpha
    · simp [capitalizeFirstLetter, hc, ih]
    · simp [capitalizeFirstLetter, hc, isAlpha_toUpper c hc, toUpper_toUpper]

theorem capitalizeFirstLetter_of_no_letter (u : List Char)
    (h : ∀ c ∈ u, c.isAlpha = false) : capitalizeFirstLetter u = u := by
  induction u with
  | nil => rfl
  | cons c rest ih =>
    have hc := h c (List.mem_cons_self _ _)
    simp [capitalizeFirstLetter, hc, ih (fun d hd => h d (List.mem_cons_of_mem _ hd))]

/-- Capitalising the first letter of a concatenation whose first part is already
capitalised changes nothing, provided the second part is capitalised too. -/
theorem capitalizeFirstLetter_append (u v : List Char)
    (hu : capitalizeFirstLetter u = u) (hv : capitalizeFirstLetter v = v) :
    capitalizeFirstLetter (u ++ v) = u ++ v := by
  induction u with
  | nil => simpa using hv
  | cons c rest ih =>
    cases hc : c.isAlpha
    · simp only [capitalizeFirstLetter, hc, Bool.false_eq_true, if_false,
        List.cons.injEq, true_and, List.cons_append] at hu ⊢
      exact ih hu
    · simp only [capitalizeFirstLetter, hc, if_true, List.cons.injEq, and_true,
        List.cons_append] at hu ⊢
      exact ⟨hu, rfl⟩

/-- The characters of a capitalised string are those of the string, or their
upper-case forms. -/
theorem mem_capitalizeFirstLetter (u : List Char) :
    ∀ c ∈ capitalizeFirstLetter u, ∃ d ∈ u, c = d ∨ c = d.toUpper := by
  induction u with
  | nil => intro c hc; simp [capitalizeFirstLetter] at hc
  | cons e rest ih =>
    intro c hc
    cases he : e.isAlpha
    · simp only [capitalizeFirstLetter, he, Bool.false_eq_true, if_false,
        List.mem_cons] at hc
      rcases hc with h | h
      · exact ⟨e, List.mem_cons_self _ _, Or.inl h⟩
      · obtain ⟨d, hd, r⟩ := ih c h
        exact ⟨d, List.mem_cons_of_mem _ hd, r⟩
    · simp only [capitalizeFirstLetter, he, if_true, List.mem_cons] at hc
      rcases hc with h | h
      · exact ⟨e, List.mem_cons_self _ _, Or.inr h⟩
      · exact ⟨c, List.mem_cons_of_mem _ h, Or.inl rfl⟩

/-- The pieces of `Split s` contain no underscore. -/
theorem underscore_not_mem_Split (s : List Char) : ∀ seg ∈ Split s, '_' ∉ seg := by
  induction s with
  | nil => intro seg hseg; simp [Split] at hseg; subst hseg; simp
  | cons d rest ih =>
    intro seg hseg
    rw [Split] at hseg
    by_cases hd : d = '_'
    · simp only [hd, if_true, List.mem_cons] at hseg
      rcases hseg with h | h
      · subst h; simp
      · exact ih seg h
    · simp only [hd, if_false] at hseg
      cases hsp : Split rest with
      | nil => exact absurd hsp (Split_ne_nil rest)
      | cons seg0 segs =>
        simp only [hsp, List.mem_cons] at hseg
        rcases hseg with h | h
        · subst h
          intro hmem
          rcases List.mem_cons.1 hmem with h1 | h1
          · exact hd h1.symm
          · exact ih seg0 (by rw [hsp]; simp) h1
        · exact ih seg (by rw [hsp]; simp [h])

/-- A normalised identifier consists of letters and digits and has its first letter
capitalised. -/
theorem toCamel_shape (s : List Char) (h : ∀ c ∈ s, c.isAlphanum = true ∨ c = '_') :
    (∀ c ∈ toCamel s, c.isAlphanum = true) ∧
    capitalizeFirstLetter (toCamel s) = toCamel s := by
  by_cases hu : '_' ∈ s
  · rw [toCamel_of_underscore s h hu]
    have hsegs : ∀ seg ∈ Split s, ∀ c ∈ seg, c.isAlphanum = true := by
      intro seg hseg c hc
      rcases h c (mem_of_mem_Split s seg hseg c hc) with h1 | h1
      · exact h1
      · subst h1; exact absurd hc (underscore_not_mem_Split s seg hseg)
    generalize Split s = segs at hsegs
    induction segs with
    | nil => simp [Join, capitalizeFirstLetter]
    | cons seg segs ih =>
      have ih2 := ih (fun sg hsg => hsegs sg (List.mem_cons_of_mem _ hsg))
      simp only [List.map_cons, Join]
      constructor
      · intro c hc
        rcases List.mem_append.1 hc with h1 | h1
        · obtain ⟨d, hd, r⟩ := mem_capitalizeFirstLetter _ c h1
          obtain ⟨e, he, rfl⟩ := List.mem_map.1 hd
          have := isAlphanum_toLower e (hsegs seg (List.mem_cons_self _ _) e he)
          rcases r with r | r
          · rw [r]; exact this
          · rw [r]; exact isAlphanum_toUpper _ this
        · exact ih2.1 c h1
      · exact capitalizeFirstLetter_append _ _ (capitalizeFirstLetter_idem _) ih2.2
  · have hal : ∀ c ∈ s, c.isAlphanum = true := by
      intro c hc
      rcases h c hc with h1 | h1
      · exact h1
      · subst h1; exact absurd hc hu
    have hcu : ContainsUnderscore s = false := by
      cases hb : ContainsUnderscore s
      · rfl
      · exact absurd ((ContainsUnderscore_iff s).1 hb) hu
    have key : ∃ s1 : List Char, (∀ c ∈ s1, c.isAlphanum = true) ∧
        toCamel s = capitalizeFirstLetter s1 := by
      unfold toCamel
      simp only [hcu, Bool.not_false, if_true]
      by_cases he : s = ToUpper s
      · rw [if_pos he]
        have hl : ∀ c ∈ ToLower s, c.isAlphanum = true := by
          intro c hc
          obtain ⟨d, hd, rfl⟩ := List.mem_map.1 hc
          exact isAlphanum_toLower d (hal d hd)
        exact ⟨ToLower s, hl, noLowerCaser_ident _ (fun c hc => Or.inl (hl c hc))⟩
      · rw [if_neg he]
        exact ⟨s, hal, noLowerCaser_ident _ h⟩
    obtain ⟨s1, h1, heq⟩ := key
    rw [heq]
    refine ⟨?_, capitalizeFirstLetter_idem s1⟩
    intro c hc
    obtain ⟨d, hd, r⟩ := mem_capitalizeFirstLetter _ c hc
    rcases r with r | r
    · rw [r]; exact h1 d hd
    · rw [r]; exact isAlphanum_toUpper _ (h1 d hd)

/-- In a string without lower-case letter, lower-casing changes nothing exactly when
there is no letter. -/
theorem map_toLower_eq_self_iff (r : List Char) (hr : isAllUpper r = true) :
    r.map Char.toLower = r ↔ r.filter Char.isAlpha = [] := by
  induction r with
  | nil => simp
  | cons c rest ih =>
    simp only [isAllUpper, List.all_cons, Bool.and_eq_true, Bool.not_eq_true'] at hr
    have ih2 := ih (by simpa [isAllUpper] using hr.2)
    simp only [List.map_cons, List.cons.injEq, List.filter_cons]
    cases hu : c.isUpper
    · have ha : c.isAlpha = false := by simp [Char.isAlpha, hu, hr.1]
      simp [ha, (toLower_eq_self_iff c).2 hu, ih2]
    · have ha : c.isAlpha = true := by simp [Char.isAlpha, hu]
      have hne : ¬ c.toLower = c := fun h => by
        have := (toLower_eq_self_iff c).1 h
        rw [hu] at this
        exact Bool.noConfusion this
      simp [ha, hne]

/-- In a string without lower-case letter, lower-casing and then capitalising the first
letter gives the string back exactly when it has at most one letter. -/
theorem capitalize_lower_eq_self_iff (t : List Char) (ht : isAllUpper t = true) :
    capitalizeFirstLetter (t.map Char.toLower) = t ↔ (t.filter Char.isAlpha).length < 2 := by
  induction t with
  | nil => simp [capitalizeFirstLetter]
  | cons c rest ih =>
    have hr : isAllUpper rest = true := by
      simp only [isAllUpper, List.all_cons, Bool.and_eq_true] at ht
      simpa [isAllUpper] using ht.2
    have hc : c.isLower = false := by
      simp only [isAllUpper, List.all_cons, Bool.and_eq_true, Bool.not_eq_true'] at ht
      exact ht.1
    cases ha : c.isAlpha
    · simp only [List.map_cons, capitalizeFirstLetter, isAlpha_toLower_eq, ha,
        Bool.false_eq_true, if_false, toLower_of_not_isAlpha c ha, List.cons.injEq, true_and,
        List.filter_cons]
      exact ih hr
    · simp only [List.map_cons, capitalizeFirstLetter, isAlpha_toLower_eq, ha, if_true,
        toUpper_toLower, (toUpper_eq_self_iff c).2 hc, List.cons.injEq, true_and,
        List.filter_cons, List.length_cons]
      rw [map_toLower_eq_self_iff rest hr]
      constructor
      · intro h; rw [h]; simp
      · intro h
        apply List.eq_nil_of_length_eq_zero
        omega

/-- Normalising a string of letters and digits: it is lower-cased first when it has no
lower-case letter, and then its first letter is capitalised. -/
theorem toCamel_of_alphanum (t : List Char) (h : ∀ c ∈ t, c.isAlphanum = true) :
    toCamel t = capitalizeFirstLetter (if isAllUpper t then t.map Char.toLower else t) := by
  have hu : '_' ∉ t := fun hm => by
    have := h '_' hm
    exact absurd this (by decide)
  have hcu : ContainsUnderscore t = false := by
    cases hb : ContainsUnderscore t
    · rfl
    · exact absurd ((ContainsUnderscore_iff t).1 hb) hu
  unfold toCamel
  simp only [hcu, Bool.not_false, if_true]
  by_cases ha : isAllUpper t = true
  · rw [if_pos ((eq_ToUpper_iff t).2 ha), if_pos ha]
    apply noLowerCaser_ident
    intro c hc
    obtain ⟨d, hd, rfl⟩ := List.mem_map.1 hc
    exact Or.inl (isAlphanum_toLower d (h d hd))
  · rw [if_neg (fun h2 => ha ((eq_ToUpper_iff t).1 h2)), if_neg ha]
    exact noLowerCaser_ident t (fun c hc => Or.inl (h c hc))

/-- C11, refuted as stated: `toCamel` is not idempotent. `A_B` and `aB` both normalize
to `AB`, and `AB`, being entirely upper-case, normalizes to `Ab`. -/
theorem toCamel_not_idempotent :
    toCamel "A_B".toList = "AB".toList ∧
    toCamel (toCamel "A_B".toList) = "Ab".toList ∧
    toCamel (toCamel "A_B".toList) ≠ toCamel "A_B".toList ∧
    toCamel "aB".toList = "AB".toList ∧
    toCamel (toCamel "aB".toList) ≠ toCamel "aB".toList := by
  decide

/-- C11, amended. For every identifier `s` of ASCII letters, digits and underscores,
`toCamel(toCamel(s)) = toCamel(s)` holds exactly when the normalised form `toCamel(s)`
contains a lower-case letter or has at most one letter. -/
theorem toCamel_idempotent_iff (s : List Char)
    (h : ∀ c ∈ s, c.isAlphanum = true ∨ c = '_') :
    toCamel (toCamel s) = toCamel s ↔
      (isAllUpper (toCamel s) = false ∨ ((toCamel s).filter Char.isAlpha).length < 2) := by
  obtain ⟨hal, hcap⟩ := toCamel_shape s h
  rw [toCamel_of_alphanum (toCamel s) hal]
  cases ha : isAllUpper (toCamel s)
  · simp [hcap]
  · simp only [if_true, Bool.true_eq_false, false_or]
    exact capitalize_lower_eq_self_iff (toCamel s) ha

/-- C11 amended, evaluated: `FOO_BAR` normalizes to `FooBar`, which contains lower-case
letters and is a fixed point. -/
theorem toCamel_idempotent_iff_witness :
    (∀ c ∈ "FOO_BAR".toList, c.isAlphanum = true ∨ c = '_') ∧
    (toCamel (toCamel "FOO_BAR".toList) = toCamel "FOO_BAR".toList ↔
      (isAllUpper (toCamel "FOO_BAR".toList) = false ∨
        ((toCamel "FOO_BAR".toList).filter Char.isAlpha).length < 2)) ∧
    isAllUpper (toCamel "FOO_BAR".toList) = false ∧
    toCamel (toCamel "FOO_BAR".toList) = "FooBar".toList :=
  ⟨by decide, toCamel_idempotent_iff "FOO_BAR".toList (by decide), by decide, by decide⟩

/-! ## Theorems, part 5: `generateErrorReasons` and `generateContent` -/

/-- The byte length of a string is positive exactly when the string is not empty. -/
theorem utf8ByteSize_pos_iff (s : String) : s.utf8ByteSize > 0 ↔ s ≠ "" := by
  cases s with
  | mk cs =>
    cases cs with
    | nil => simp [String.utf8ByteSize, String.utf8ByteSize.go]
    | cons c rest =>
      have hc := Char.utf8Size_pos c
      constructor
      · intro _ h
        exact absurd (congrArg String.data h) (by simp)
      · intro _
        show String.utf8ByteSize.go (c :: rest) > 0
        simp only [String.utf8ByteSize.go]
        omega

/-- The loop of `generateErrorReasons` appends one descriptor per value, in order. -/
theorem errorLoop_eq_map (enum : Enum) (vs : List EnumValue) :
    ∀ acc : List errorDesc,
      errorLoop enum vs acc = acc ++ vs.map (fun v =>
        { Name := enum.Name,
          Value := v.Name,
          CamelValue := String.mk (toCamel v.Name.toList),
          Comment := if v.Leading ≠ "" then v.Leading else v.Trailing,
          HasComment := decide ((if v.Leading ≠ "" then v.Leading else v.Trailing) ≠ "") }) := by
  induction vs with
  | nil => intro acc; simp [errorLoop]
  | cons v rest ih =>
    intro acc
    have hdec : ∀ s : String, decide (s.utf8ByteSize > 0) = decide (s ≠ "") :=
      fun s => decide_eq_decide.2 (utf8ByteSize_pos_iff s)
    rw [errorLoop, ih]
    simp only [hdec]
    by_cases hl : v.Leading = "" <;> simp [hl]

/-- The enum loop of `generateContent` applies `generateErrorReasons` to the enums named
`ErrorReason`, in order, and to no other. -/
theorem enumLoop_eq_foldl {G : Type} (ops : GeneratedFile G)
    (executeErrors : errorsWrapper → String) (enums : List Enum) :
    ∀ g : G, enumLoop ops executeErrors g enums
      = (enums.filter (fun e => decide (e.Name = "ErrorReason"))).foldl
          (generateErrorReasons ops executeErrors) g := by
  induction enums with
  | nil => intro g; rfl
  | cons e rest ih =>
    intro g
    rw [enumLoop]
    by_cases he : e.Name = "ErrorReason"
    · simp [he, ih, List.filter_cons]
    · simp [he, ih, List.filter_cons]

/-- C13. Error-reason bridge. The descriptor list built by `generateErrorReasons` has
exactly one entry per enum value, in declaration order; its `CamelValue` is `toCamel` of
the value's name, its `Comment` is the leading comment when that is non-empty and the
trailing comment otherwise, and `HasComment` holds exactly when the chosen comment is
non-empty. For an enumeration without values nothing is emitted. `generateContent` runs
the bridge on the enumerations named exactly `ErrorReason`, in order, and on no other:
its enum loop is that fold, and any other enumeration can be removed from the file
without changing the output. -/
theorem generateErrorReasons_descriptors {G : Type} (ops : GeneratedFile G)
    (execute : serviceDesc → String) (executeErrors : errorsWrapper → String)
    (enum : Enum) (name : String) (file : File) (g : G) :
    errorLoop enum enum.Values [] = enum.Values.map (fun v =>
        { Name := enum.Name,
          Value := v.Name,
          CamelValue := String.mk (toCamel v.Name.toList),
          Comment := if v.Leading ≠ "" then v.Leading else v.Trailing,
          HasComment := decide ((if v.Leading ≠ "" then v.Leading else v.Trailing) ≠ "") }) ∧
    (errorLoop enum enum.Values []).length = enum.Values.length ∧
    generateErrorReasons ops executeErrors g enum
      = (if enum.Values.length ≠ 0 then
           ops.P g [executeErrors { Errors := errorLoop enum enum.Values [] }]
         else g) ∧
    generateErrorReasons ops executeErrors g { Name := name, Values := [] } = g ∧
    enumLoop ops executeErrors g file.Enums
      = (file.Enums.filter (fun e => decide (e.Name = "ErrorReason"))).foldl
          (generateErrorReasons ops executeErrors) g ∧
    generateContent ops execute executeErrors file g
      = generateContent ops execute executeErrors
          { file with Enums := file.Enums.filter (fun e => decide (e.Name = "ErrorReason")) } g := by
  have hmap := errorLoop_eq_map enum enum.Values []
  rw [List.nil_append] at hmap
  have hlen : (errorLoop enum enum.Values []).length = enum.Values.length := by
    rw [hmap, List.length_map]
  refine ⟨hmap, hlen, ?_, rfl, enumLoop_eq_foldl ops executeErrors file.Enums g, ?_⟩
  · simp only [generateErrorReasons, hlen]
  · simp only [generateContent]
    rw [enumLoop_eq_foldl, enumLoop_eq_foldl, List.filter_filter]
    simp

/-- The bridge evaluated on the sample catalog. -/
theorem generateErrorReasons_example :
    errorLoop sampleEnum sampleEnum.Values []
      = [ { Name := "ErrorReason", Value := "USER_NOT_FOUND", CamelValue := "UserNotFound",
            Comment := "// user is unknown\n", HasComment := true },
          { Name := "ErrorReason", Value := "QUOTA", CamelValue := "Quota",
            Comment := "// quota exceeded\n", HasComment := true },
          { Name := "ErrorReason", Value := "INTERNAL", CamelValue := "Internal",
            Comment := "", HasComment := false } ] ∧
    enumLoop sampleFile (fun _ => "errors") []
        [{ Name := "Status", Values := sampleEnum.Values }, sampleEnum,
         { Name := "errorReason", Values := sampleEnum.Values }]
      = ["errors"] := by
  decide

/-! ## Theorems, part 6: the actor in every state -/

/-- `Receive` of testdata/reenter on an initialised actor returns, leaves the actor
initialised and answers a failed request with an error response, for every message but
the nil `*GrainRequest` and a `ClusterInit` that cannot be served. -/
theorem Reenter.Receive_initialised {S Q0 R0 Q1 R1 : Type} (cl : Reenter.ClusterPkg)
    (codec0 : Codec Reenter.GoError Q0) (codec1 : Codec Reenter.GoError Q1)
    (impl : Reenter.Hello S Q0 R0 Q1 R1) (factory : Option (Unit → Option S))
    (a : Reenter.HelloActor S) (s : S) (gctx : GrainContext) (msg : Message)
    (hinner : a.inner = some s) (hctx : a.ctx = some gctx)
    (hreq : msg ≠ Message.GrainRequest none)
    (hinit : ∀ p, msg = Message.ClusterInit p →
      ∃ m f s0, p = some m ∧ factory = some f ∧ f () = some s0) :
    ∃ a1 es, Reenter.HelloActor.Receive cl codec0 codec1 impl factory a msg = Run.done (a1, es) ∧
      a1.inner ≠ none ∧ a1.ctx ≠ none ∧
      (∀ m, msg = Message.GrainRequest (some m) →
        Reenter.requestFails codec0 codec1 impl s a.ctx m →
        ∃ r, Reenter.Reply.GrainErrorResponse r ∈ Reenter.responses es) := by
  cases msg with
  | Started =>
    exact ⟨a, [], rfl, by simp [hinner], by simp [hctx], fun m hm => by cases hm⟩
  | ClusterInit p =>
    obtain ⟨m, f, s0, rfl, rfl, hf⟩ := hinit p rfl
    by_cases ht : a.Timeout > 0
    · exact ⟨{ ctx := some { Identity := m.Identity },
               inner := some (impl.Init s0 (some { Identity := m.Identity })),
               Timeout := a.Timeout },
        [Reenter.Event.Init, Reenter.Event.SetReceiveTimeout a.Timeout],
        by simp [Reenter.HelloActor.Receive, hf, ht], by simp, by simp,
        fun m hm => by cases hm⟩
    · exact ⟨{ ctx := some { Identity := m.Identity },
               inner := some (impl.Init s0 (some { Identity := m.Identity })),
               Timeout := a.Timeout },
        [Reenter.Event.Init], by simp [Reenter.HelloActor.Receive, hf, ht], by simp, by simp,
        fun m hm => by cases hm⟩
  | ReceiveTimeout =>
    exact ⟨a, _, rfl, by simp [hinner], by simp [hctx], fun m hm => by cases hm⟩
  | Stopped =>
    exact ⟨{ a with inner := some (impl.Terminate s a.ctx) }, [Reenter.Event.Terminate],
      by simp [Reenter.HelloActor.Receive, hinner], by simp, by simp [hctx],
      fun m hm => by cases hm⟩
  | AutoReceiveMessage =>
    exact ⟨a, [], rfl, by simp [hinner], by simp [hctx], fun m hm => by cases hm⟩
  | SystemMessage =>
    exact ⟨a, [], rfl, by simp [hinner], by simp [hctx], fun m hm => by cases hm⟩
  | other =>
    exact ⟨{ a with inner := some (impl.ReceiveDefault s a.ctx) },
      [Reenter.Event.ReceiveDefault],
      by simp [Reenter.HelloActor.Receive, hinner], by simp, by simp [hctx],
      fun m hm => by cases hm⟩
  | GrainRequest p =>
    cases p with
    | none => exact absurd rfl hreq
    | some m =>
      by_cases h0 : m.MethodIndex = 0
      · rcases hu : codec0.Unmarshal m.MessageData with ⟨req, _ | err⟩
        · rcases hb : impl.SayHello s req a.ctx with ⟨s1, calls, err⟩
          refine ⟨_, _, Reenter.Receive_SayHello cl codec0 codec1 impl factory a s s1 gctx m req
            calls err hinner hctx h0 hu hb, by simp, by simp [hctx], ?_⟩
          intro m2 hm2 hfail
          cases hm2
          rcases hfail with ⟨_, hf⟩ | ⟨h1, _⟩
          · rw [hu] at hf
            simp only [ne_eq, not_true_eq_false, false_or, hb] at hf
            cases err with
            | none => exact absurd rfl hf
            | some e =>
              refine ⟨cl.FromError (some e), ?_⟩
              rw [Reenter.responses_append]
              exact List.mem_append_right _ (List.mem_singleton_self _)
          · rw [h0] at h1; exact absurd h1 (by decide)
        · refine ⟨_, _, (Reenter.Receive_decode_failure cl codec0 codec1 impl factory a m).1
            req err h0 hu, by simp [hinner], by simp [hctx], ?_⟩
          intro m2 _ _
          exact ⟨_, List.mem_singleton_self _⟩
      · by_cases h1 : m.MethodIndex = 1
        · rcases hu : codec1.Unmarshal m.MessageData with ⟨req, _ | err⟩
          · rcases hb : impl.Dowork s req a.ctx with ⟨s1, r0, err⟩
            refine ⟨_, _, Reenter.Receive_Dowork cl codec0 codec1 impl factory a s s1 m req
              r0 err hinner h1 hu hb, by simp, by simp [hctx], ?_⟩
            intro m2 hm2 hfail
            cases hm2
            rcases hfail with ⟨h0', _⟩ | ⟨_, hf⟩
            · exact absurd h0' h0
            · rw [hu] at hf
              simp only [ne_eq, not_true_eq_false, false_or, hb] at hf
              cases err with
              | none => exact absurd rfl hf
              | some e => exact ⟨cl.FromError (some e), List.mem_singleton_self _⟩
          · refine ⟨_, _, (Reenter.Receive_decode_failure cl codec0 codec1 impl factory a m).2
              req err h1 hu, by simp [hinner], by simp [hctx], ?_⟩
            intro m2 _ _
            exact ⟨_, List.mem_singleton_self _⟩
        · refine ⟨a, [], by simp [Reenter.HelloActor.Receive, h0, h1],
            by simp [hinner], by simp [hctx], ?_⟩
          intro m2 hm2 hfail
          cases hm2
          rcases hfail with ⟨h0', _⟩ | ⟨h1', _⟩
          · exact absurd h0' h0
          · exact absurd h1' h1

/-- `Receive` of examples/cluster-grain on an initialised actor returns, leaves the
actor initialised and answers a failed request with an error response, for every
message but the nil `*GrainRequest` and a `ClusterInit` that cannot be served. -/
theorem ClusterGrain.Receive_initialised_blocking {S Q R : Type} (codec : Codec ClusterGrain.GoError Q)
    (impl : ClusterGrain.Hello S Q R) (factory : Option (Unit → Option S))
    (a : ClusterGrain.HelloActor S) (s : S) (gctx : GrainContext) (msg : Message)
    (hinner : a.inner = some s) (hctx : a.ctx = some gctx)
    (hreq : msg ≠ Message.GrainRequest none)
    (hinit : ∀ p, msg = Message.ClusterInit p →
      ∃ m f s0, p = some m ∧ factory = some f ∧ f () = some s0) :
    ∃ a1 es, ClusterGrain.HelloActor.Receive codec impl factory a msg = Run.done (a1, es) ∧
      a1.inner ≠ none ∧ a1.ctx ≠ none ∧
      (∀ m, msg = Message.GrainRequest (some m) →
        ClusterGrain.requestFails codec impl s a.ctx m →
        ∃ r, ClusterGrain.Reply.GrainErrorResponse r ∈ ClusterGrain.responses es) := by
  cases msg with
  | Started =>
    exact ⟨a, [], rfl, by simp [hinner], by simp [hctx], fun m hm => by cases hm⟩
  | ClusterInit p =>
    obtain ⟨m, f, s0, rfl, rfl, hf⟩ := hinit p rfl
    by_cases ht : a.Timeout > 0
    · exact ⟨{ ctx := some { Identity := m.Identity },
               inner := some (impl.Init s0 (some { Identity := m.Identity })),
               Timeout := a.Timeout },
        [ClusterGrain.Event.Init, ClusterGrain.Event.SetReceiveTimeout a.Timeout],
        by simp [ClusterGrain.HelloActor.Receive, hf, ht], by simp, by simp,
        fun m hm => by cases hm⟩
    · exact ⟨{ ctx := some { Identity := m.Identity },
               inner := some (impl.Init s0 (some { Identity := m.Identity })),
               Timeout := a.Timeout },
        [ClusterGrain.Event.Init], by simp [ClusterGrain.HelloActor.Receive, hf, ht],
        by simp, by simp, fun m hm => by cases hm⟩
  | ReceiveTimeout =>
    exact ⟨a, _, rfl, by simp [hinner], by simp [hctx], fun m hm => by cases hm⟩
  | Stopped =>
    exact ⟨{ a with inner := some (impl.Terminate s a.ctx) }, [ClusterGrain.Event.Terminate],
      by simp [ClusterGrain.HelloActor.Receive, hinner], by simp, by simp [hctx],
      fun m hm => by cases hm⟩
  | AutoReceiveMessage =>
    exact ⟨a, [], rfl, by simp [hinner], by simp [hctx], fun m hm => by cases hm⟩
  | SystemMessage =>
    exact ⟨a, [], rfl, by simp [hinner], by simp [hctx], fun m hm => by cases hm⟩
  | other =>
    exact ⟨{ a with inner := some (impl.ReceiveDefault s a.ctx) },
      [ClusterGrain.Event.ReceiveDefault],
      by simp [ClusterGrain.HelloActor.Receive, hinner], by simp, by simp [hctx],
      fun m hm => by cases hm⟩
  | GrainRequest p =>
    cases p with
    | none => exact absurd rfl hreq
    | some m =>
      by_cases h0 : m.MethodIndex = 0
      · rcases hu : codec.Unmarshal m.MessageData with ⟨req, _ | err⟩
        · rcases hb : impl.SayHello s req a.ctx with ⟨s1, r0, err⟩
          refine ⟨_, _, ClusterGrain.Receive_SayHello_blocking codec impl factory a s s1 m req
            r0 err hinner h0 hu hb, by simp, by simp [hctx], ?_⟩
          intro m2 hm2 hfail
          cases hm2
          obtain ⟨_, hf⟩ := hfail
          rw [hu] at hf
          simp only [ne_eq, not_true_eq_false, false_or, hb] at hf
          cases err with
          | none => exact absurd rfl hf
          | some e => exact ⟨some { Err := e.Error }, List.mem_singleton_self _⟩
        · refine ⟨a,
            [ClusterGrain.Event.LogError
               "[Grain] SayHello(HelloRequest) proto.Unmarshal failed." err,
             ClusterGrain.Event.Respond
               (ClusterGrain.Reply.GrainErrorResponse (some { Err := err.Error }))],
            by simp [ClusterGrain.HelloActor.Receive, h0, hu],
            by simp [hinner], by simp [hctx], ?_⟩
          intro m2 _ _
          exact ⟨_, List.mem_singleton_self _⟩
      · refine ⟨a, [], by simp [ClusterGrain.HelloActor.Receive, h0],
          by simp [hinner], by simp [hctx], ?_⟩
        intro m2 hm2 hfail
        cases hm2
        exact absurd hfail.1 h0

/-- C14, refuted as stated. In the initial state (no `ClusterInit` received, `inner` and
`ctx` unset), `Receive` panics on the nil `a.inner` for `Stopped`, for a message of the
default case and for a request with a known index and a decodable payload; this in both
generated files, and whether or not a factory is registered. `ClusterInit` itself
panics when `xHelloFactory` was never set, and a nil `*GrainRequest` panics in any
state. -/
theorem uninitialised_actor_panics :
    Reenter.HelloActor.Receive sampleCluster (sampleCodec Reenter.GoError.other)
        (sampleCodec Reenter.GoError.other) sampleHello sampleFactory freshActor
        Message.Stopped
      = Run.panic "nil pointer dereference: a.inner.Terminate" ∧
    Reenter.HelloActor.Receive sampleCluster (sampleCodec Reenter.GoError.other)
        (sampleCodec Reenter.GoError.other) sampleHello sampleFactory freshActor
        Message.other
      = Run.panic "nil pointer dereference: a.inner.ReceiveDefault" ∧
    Reenter.HelloActor.Receive sampleCluster (sampleCodec Reenter.GoError.other)
        (sampleCodec Reenter.GoError.other) sampleHello sampleFactory freshActor
        (Message.GrainRequest (some { MethodIndex := 1, MessageData := [10, 3, 106, 111, 98] }))
      = Run.panic "nil pointer dereference: a.inner.Dowork" ∧
    ClusterGrain.HelloActor.Receive (sampleCodec ClusterGrain.GoError.other)
        sampleHelloBlocking sampleFactory freshActorBlocking Message.Stopped
      = Run.panic "nil pointer dereference: a.inner.Terminate" ∧
    ClusterGrain.HelloActor.Receive (sampleCodec ClusterGrain.GoError.other)
        sampleHelloBlocking sampleFactory freshActorBlocking
        (Message.GrainRequest (some { MethodIndex := 0, MessageData := [10, 2, 104, 105] }))
      = Run.panic "nil pointer dereference: a.inner.SayHello" ∧
    Reenter.HelloActor.Receive sampleCluster (sampleCodec Reenter.GoError.other)
        (sampleCodec Reenter.GoError.other) sampleHello none freshActor
        (Message.ClusterInit (some { Identity := "grain-1" }))
      = Run.panic "call of nil function: xHelloFactory" ∧
    Reenter.HelloActor.Receive sampleCluster (sampleCodec Reenter.GoError.other)
        (sampleCodec Reenter.GoError.other) sampleHello sampleFactory sampleActor
        (Message.GrainRequest none)
      = Run.panic "nil pointer dereference: msg.MethodIndex" := by
  refine ⟨?_, ?_, ?_, ?_, ?_, ?_, ?_⟩ <;> decide

/-- With the grain context unset, the first call of a continuation panics. -/
theorem Reenter.runContinuations_nil_ctx {S Q0 R0 Q1 R1 : Type} (cl : Reenter.ClusterPkg)
    (a : Reenter.HelloActor S) (hctx : a.ctx = none) (calls : List (Reenter.Continuation R0))
    (hcalls : calls ≠ []) :
    ∃ reason, (Reenter.runContinuations cl a calls :
      Run (List (Reenter.Event Q0 R0 Q1 R1))) = Run.panic reason := by
  cases calls with
  | nil => exact absurd rfl hcalls
  | cons c rest =>
    cases c <;>
      simp [Reenter.runContinuations, Reenter.respond, Reenter.HelloActor.onError, hctx]

/-- `Receive` of testdata/reenter returns exactly when it meets no nil value. -/
theorem Reenter.Receive_done_iff {S Q0 R0 Q1 R1 : Type} (cl : Reenter.ClusterPkg)
    (codec0 : Codec Reenter.GoError Q0) (codec1 : Codec Reenter.GoError Q1)
    (impl : Reenter.Hello S Q0 R0 Q1 R1) (factory : Option (Unit → Option S))
    (a : Reenter.HelloActor S) (msg : Message) :
    (∃ a1 es, Reenter.HelloActor.Receive cl codec0 codec1 impl factory a msg = Run.done (a1, es)) ↔
      ¬ (msg = Message.GrainRequest none ∨
         msg = Message.ClusterInit none ∨
         (∃ m, msg = Message.ClusterInit (some m) ∧
           (factory = none ∨ ∃ f, factory = some f ∧ f () = none)) ∨
         (a.inner = none ∧
           (msg = Message.Stopped ∨ msg = Message.other ∨
            ∃ m, msg = Message.GrainRequest (some m) ∧
              ((m.MethodIndex = 0 ∧ (codec0.Unmarshal m.MessageData).2 = none) ∨
               (m.MethodIndex = 1 ∧ (codec1.Unmarshal m.MessageData).2 = none)))) ∨
         (∃ m s, msg = Message.GrainRequest (some m) ∧ a.inner = some s ∧ a.ctx = none ∧
            m.MethodIndex = 0 ∧ (codec0.Unmarshal m.MessageData).2 = none ∧
            (impl.SayHello s (codec0.Unmarshal m.MessageData).1 a.ctx).2.1 ≠ [])) := by
  cases msg with
  | Started => simp [Reenter.HelloActor.Receive]
  | ReceiveTimeout => simp [Reenter.HelloActor.Receive]
  | AutoReceiveMessage => simp [Reenter.HelloActor.Receive]
  | SystemMessage => simp [Reenter.HelloActor.Receive]
  | Stopped => cases hi : a.inner <;> simp [Reenter.HelloActor.Receive, hi]
  | other => cases hi : a.inner <;> simp [Reenter.HelloActor.Receive, hi]
  | ClusterInit p =>
    cases p with
    | none => simp [Reenter.HelloActor.Receive]
    | some m =>
      cases factory with
      | none => simp [Reenter.HelloActor.Receive]
      | some f =>
        cases hf : f () with
        | none => simp [Reenter.HelloActor.Receive, hf]
        | some s0 =>
          by_cases ht : a.Timeout > 0 <;> simp [Reenter.HelloActor.Receive, hf, ht]
  | GrainRequest p =>
    cases p with
    | none => simp [Reenter.HelloActor.Receive]
    | some m =>
      by_cases h0 : m.MethodIndex = 0
      · rcases hu : codec0.Unmarshal m.MessageData with ⟨req, _ | err⟩
        · cases hi : a.inner with
          | none => simp [Reenter.HelloActor.Receive, h0, hu, hi]
          | some s =>
            rcases hb : impl.SayHello s req a.ctx with ⟨s1, calls, err⟩
            cases hc : a.ctx with
            | some gctx =>
              have := Reenter.Receive_SayHello cl codec0 codec1 impl factory a s s1 gctx m req
                calls err hi hc h0 hu hb
              rw [this]
              simp [h0, hu, hi, hc]
            | none =>
              cases calls with
              | nil =>
                rw [hc] at hb
                cases err <;>
                  simp [Reenter.HelloActor.Receive, Reenter.runContinuations, h0, hu, hi, hc, hb]
              | cons c rest =>
                obtain ⟨reason, hp⟩ := @Reenter.runContinuations_nil_ctx S Q0 R0 Q1 R1
                  cl a hc (c :: rest) (by simp)
                rw [hc] at hb
                simp [Reenter.HelloActor.Receive, h0, hu, hi, hc, hb, hp]
        · simp [Reenter.HelloActor.Receive, h0, hu]
      · by_cases h1 : m.MethodIndex = 1
        · rcases hu : codec1.Unmarshal m.MessageData with ⟨req, _ | err⟩
          · cases hi : a.inner with
            | none => simp [Reenter.HelloActor.Receive, h0, h1, hu, hi]
            | some s =>
              rcases hb : impl.Dowork s req a.ctx with ⟨s1, r0, err⟩
              cases err <;> simp [Reenter.HelloActor.Receive, h0, h1, hu, hi, hb]
          · simp [Reenter.HelloActor.Receive, h0, h1, hu]
        · simp [Reenter.HelloActor.Receive, h0, h1]

/-- What `Receive` of testdata/reenter has done when it returns, in any actor state: a
field that was set is still set, and a failed request (a payload that does not decode,
an error returned by the business method) was answered with an error response. -/
theorem Reenter.Receive_done_effects {S Q0 R0 Q1 R1 : Type} (cl : Reenter.ClusterPkg)
    (codec0 : Codec Reenter.GoError Q0) (codec1 : Codec Reenter.GoError Q1)
    (impl : Reenter.Hello S Q0 R0 Q1 R1) (factory : Option (Unit → Option S))
    (a : Reenter.HelloActor S) (msg : Message)
    (a1 : Reenter.HelloActor S) (es : List (Reenter.Event Q0 R0 Q1 R1))
    (h : Reenter.HelloActor.Receive cl codec0 codec1 impl factory a msg = Run.done (a1, es)) :
    (a.inner ≠ none → a1.inner ≠ none) ∧ (a.ctx ≠ none → a1.ctx ≠ none) ∧
    (∀ m, msg = Message.GrainRequest (some m) →
      ((m.MethodIndex = 0 ∧ (codec0.Unmarshal m.MessageData).2 ≠ none) ∨
       (m.MethodIndex = 1 ∧ (codec1.Unmarshal m.MessageData).2 ≠ none) ∨
       (∃ s, a.inner = some s ∧ Reenter.requestFails codec0 codec1 impl s a.ctx m)) →
      ∃ r, Reenter.Reply.GrainErrorResponse r ∈ Reenter.responses es) := by
  cases msg with
  | Started =>
    simp only [Reenter.HelloActor.Receive, Run.done.injEq, Prod.mk.injEq] at h
    obtain ⟨rfl, rfl⟩ := h
    exact ⟨id, id, fun m hm => by cases hm⟩
  | ReceiveTimeout =>
    simp only [Reenter.HelloActor.Receive, Run.done.injEq, Prod.mk.injEq] at h
    obtain ⟨rfl, rfl⟩ := h
    exact ⟨id, id, fun m hm => by cases hm⟩
  | AutoReceiveMessage =>
    simp only [Reenter.HelloActor.Receive, Run.done.injEq, Prod.mk.injEq] at h
    obtain ⟨rfl, rfl⟩ := h
    exact ⟨id, id, fun m hm => by cases hm⟩
  | SystemMessage =>
    simp only [Reenter.HelloActor.Receive, Run.done.injEq, Prod.mk.injEq] at h
    obtain ⟨rfl, rfl⟩ := h
    exact ⟨id, id, fun m hm => by cases hm⟩
  | Stopped =>
    cases hi : a.inner with
    | none => simp [Reenter.HelloActor.Receive, hi] at h
    | some s =>
      simp only [Reenter.HelloActor.Receive, hi, Run.done.injEq, Prod.mk.injEq] at h
      obtain ⟨rfl, rfl⟩ := h
      exact ⟨fun _ => by simp, id, fun m hm => by cases hm⟩
  | other =>
    cases hi : a.inner with
    | none => simp [Reenter.HelloActor.Receive, hi] at h
    | some s =>
      simp only [Reenter.HelloActor.Receive, hi, Run.done.injEq, Prod.mk.injEq] at h
      obtain ⟨rfl, rfl⟩ := h
      exact ⟨fun _ => by simp, id, fun m hm => by cases hm⟩
  | ClusterInit p =>
    cases p with
    | none => simp [Reenter.HelloActor.Receive] at h
    | some m =>
      cases factory with
      | none => simp [Reenter.HelloActor.Receive] at h
      | some f =>
        cases hf : f () with
        | none => simp [Reenter.HelloActor.Receive, hf] at h
        | some s0 =>
          by_cases ht : a.Timeout > 0
          · simp only [Reenter.HelloActor.Receive, hf, ht, if_true, Run.done.injEq,
              Prod.mk.injEq] at h
            obtain ⟨rfl, rfl⟩ := h
            exact ⟨fun _ => by simp, fun _ => by simp, fun m hm => by cases hm⟩
          · simp only [Reenter.HelloActor.Receive, hf, ht, if_false, Run.done.injEq,
              Prod.mk.injEq] at h
            obtain ⟨rfl, rfl⟩ := h
            exact ⟨fun _ => by simp, fun _ => by simp, fun m hm => by cases hm⟩
  | GrainRequest p =>
    cases p with
    | none => simp [Reenter.HelloActor.Receive] at h
    | some m =>
      by_cases h0 : m.MethodIndex = 0
      · rcases hu : codec0.Unmarshal m.MessageData with ⟨req, _ | err⟩
        · cases hi : a.inner with
          | none => simp [Reenter.HelloActor.Receive, h0, hu, hi] at h
          | some s =>
            rcases hb : impl.SayHello s req a.ctx with ⟨s1, calls, err⟩
            have hfail : ∀ m2, Message.GrainRequest (some m) = Message.GrainRequest (some m2) →
                ((m2.MethodIndex = 0 ∧ (codec0.Unmarshal m2.MessageData).2 ≠ none) ∨
                 (m2.MethodIndex = 1 ∧ (codec1.Unmarshal m2.MessageData).2 ≠ none) ∨
                 (∃ s', some s = some s' ∧
                    Reenter.requestFails codec0 codec1 impl s' a.ctx m2)) →
                ∃ e, err = some e := by
              intro m2 hm2 hf
              cases hm2
              rcases hf with ⟨_, hd⟩ | ⟨h1, _⟩ | ⟨s', hs', hr⟩
              · rw [hu] at hd; exact absurd rfl hd
              · rw [h0] at h1; exact absurd h1 (by decide)
              · cases hs'
                rcases hr with ⟨_, hd⟩ | ⟨h1, _⟩
                · rw [hu] at hd
                  simp only [ne_eq, not_true_eq_false, false_or, hb] at hd
                  cases err with
                  | none => exact absurd rfl hd
                  | some e => exact ⟨e, rfl⟩
                · rw [h0] at h1; exact absurd h1 (by decide)
            cases hr : (Reenter.runContinuations cl a calls :
                Run (List (Reenter.Event Q0 R0 Q1 R1))) with
            | panic reason => simp [Reenter.HelloActor.Receive, h0, hu, hi, hb, hr] at h
            | done evs =>
              cases err with
              | none =>
                simp only [Reenter.HelloActor.Receive, h0, hu, hi, hb, hr, if_true,
                  Run.done.injEq, Prod.mk.injEq] at h
                obtain ⟨rfl, rfl⟩ := h
                refine ⟨fun _ => by simp, id, ?_⟩
                intro m2 hm2 hf
                obtain ⟨e, he⟩ := hfail m2 hm2 hf
                cases he
              | some e =>
                simp only [Reenter.HelloActor.Receive, h0, hu, hi, hb, hr, if_true,
                  Run.done.injEq, Prod.mk.injEq] at h
                obtain ⟨rfl, rfl⟩ := h
                refine ⟨fun _ => by simp, id, ?_⟩
                intro m2 _ _
                refine ⟨cl.FromError (some e), ?_⟩
                rw [Reenter.responses_append]
                exact List.mem_append_right _ (List.mem_singleton_self _)
        · simp only [Reenter.HelloActor.Receive, h0, hu, if_true, Run.done.injEq,
            Prod.mk.injEq] at h
          obtain ⟨rfl, rfl⟩ := h
          exact ⟨id, id, fun m2 _ _ => ⟨_, List.mem_singleton_self _⟩⟩
      · by_cases h1 : m.MethodIndex = 1
        · rcases hu : codec1.Unmarshal m.MessageData with ⟨req, _ | err⟩
          · cases hi : a.inner with
            | none => simp [Reenter.HelloActor.Receive, h0, h1, hu, hi] at h
            | some s =>
              rcases hb : impl.Dowork s req a.ctx with ⟨s1, r0, err⟩
              cases err with
              | none =>
                simp only [Reenter.HelloActor.Receive, h0, h1, hu, hi, hb, if_true, if_false,
                  Run.done.injEq, Prod.mk.injEq] at h
                obtain ⟨rfl, rfl⟩ := h
                refine ⟨fun _ => by simp, id, ?_⟩
                intro m2 hm2 hf
                cases hm2
                rcases hf with ⟨h0', _⟩ | ⟨_, hd⟩ | ⟨s', hs', hr⟩
                · exact absurd h0' h0
                · rw [hu] at hd; exact absurd rfl hd
                · cases hs'
                  rcases hr with ⟨h0', _⟩ | ⟨_, hd⟩
                  · exact absurd h0' h0
                  · rw [hu] at hd
                    simp only [ne_eq, not_true_eq_false, false_or, hb] at hd
              | some e =>
                simp only [Reenter.HelloActor.Receive, h0, h1, hu, hi, hb, if_true, if_false,
                  Run.done.injEq, Prod.mk.injEq] at h
                obtain ⟨rfl, rfl⟩ := h
                exact ⟨fun _ => by simp, id,
                  fun m2 _ _ => ⟨cl.FromError (some e), List.mem_singleton_self _⟩⟩
          · simp only [Reenter.HelloActor.Receive, h0, h1, hu, if_true, if_false,
              Run.done.injEq, Prod.mk.injEq] at h
            obtain ⟨rfl, rfl⟩ := h
            exact ⟨id, id, fun m2 _ _ => ⟨_, List.mem_singleton_self _⟩⟩
        · simp only [Reenter.HelloActor.Receive, h0, h1, if_false, Run.done.injEq,
            Prod.mk.injEq] at h
          obtain ⟨rfl, rfl⟩ := h
          refine ⟨id, id, ?_⟩
          intro m2 hm2 hf
          cases hm2
          rcases hf with ⟨h0', _⟩ | ⟨h1', _⟩ | ⟨s', _, hr⟩
          · exact absurd h0' h0
          · exact absurd h1' h1
          · rcases hr with ⟨h0', _⟩ | ⟨h1', _⟩
            · exact absurd h0' h0
            · exact absurd h1' h1

/-- `Receive` of examples/cluster-grain returns exactly when it meets no nil value. -/
theorem ClusterGrain.Receive_done_iff_blocking {S Q R : Type}
    (codec : Codec ClusterGrain.GoError Q) (impl : ClusterGrain.Hello S Q R)
    (factory : Option (Unit → Option S)) (a : ClusterGrain.HelloActor S) (msg : Message) :
    (∃ a1 es, ClusterGrain.HelloActor.Receive codec impl factory a msg = Run.done (a1, es)) ↔
      ¬ (msg = Message.GrainRequest none ∨
         msg = Message.ClusterInit none ∨
         (∃ m, msg = Message.ClusterInit (some m) ∧
           (factory = none ∨ ∃ f, factory = some f ∧ f () = none)) ∨
         (a.inner = none ∧
           (msg = Message.Stopped ∨ msg = Message.other ∨
            ∃ m, msg = Message.GrainRequest (some m) ∧
              m.MethodIndex = 0 ∧ (codec.Unmarshal m.MessageData).2 = none))) := by
  cases msg with
  | Started => simp [ClusterGrain.HelloActor.Receive]
  | ReceiveTimeout => simp [ClusterGrain.HelloActor.Receive]
  | AutoReceiveMessage => simp [ClusterGrain.HelloActor.Receive]
  | SystemMessage => simp [ClusterGrain.HelloActor.Receive]
  | Stopped => cases hi : a.inner <;> simp [ClusterGrain.HelloActor.Receive, hi]
  | other => cases hi : a.inner <;> simp [ClusterGrain.HelloActor.Receive, hi]
  | ClusterInit p =>
    cases p with
    | none => simp [ClusterGrain.HelloActor.Receive]
    | some m =>
      cases factory with
      | none => simp [ClusterGrain.HelloActor.Receive]
      | some f =>
        cases hf : f () with
        | none => simp [ClusterGrain.HelloActor.Receive, hf]
        | some s0 =>
          by_cases ht : a.Timeout > 0 <;> simp [ClusterGrain.HelloActor.Receive, hf, ht]
  | GrainRequest p =>
    cases p with
    | none => simp [ClusterGrain.HelloActor.Receive]
    | some m =>
      by_cases h0 : m.MethodIndex = 0
      · rcases hu : codec.Unmarshal m.MessageData with ⟨req, _ | err⟩
        · cases hi : a.inner with
          | none => simp [ClusterGrain.HelloActor.Receive, h0, hu, hi]
          | some s =>
            rcases hb : impl.SayHello s req a.ctx with ⟨s1, r0, err⟩
            cases err <;> simp [ClusterGrain.HelloActor.Receive, h0, hu, hi, hb]
        · simp [ClusterGrain.HelloActor.Receive, h0, hu]
      · simp [ClusterGrain.HelloActor.Receive, h0]

/-- What `Receive` of examples/cluster-grain has done when it returns, in any actor
state: a field that was set is still set, and a failed request was answered with an
error response. -/
theorem ClusterGrain.Receive_done_effects_blocking {S Q R : Type}
    (codec : Codec ClusterGrain.GoError Q) (impl : ClusterGrain.Hello S Q R)
    (factory : Option (Unit → Option S)) (a : ClusterGrain.HelloActor S) (msg : Message)
    (a1 : ClusterGrain.HelloActor S) (es : List (ClusterGrain.Event Q R))
    (h : ClusterGrain.HelloActor.Receive codec impl factory a msg = Run.done (a1, es)) :
    (a.inner ≠ none → a1.inner ≠ none) ∧ (a.ctx ≠ none → a1.ctx ≠ none) ∧
    (∀ m, msg = Message.GrainRequest (some m) →
      ((m.MethodIndex = 0 ∧ (codec.Unmarshal m.MessageData).2 ≠ none) ∨
       (∃ s, a.inner = some s ∧ ClusterGrain.requestFails codec impl s a.ctx m)) →
      ∃ r, ClusterGrain.Reply.GrainErrorResponse r ∈ ClusterGrain.responses es) := by
  cases msg with
  | Started =>
    simp only [ClusterGrain.HelloActor.Receive, Run.done.injEq, Prod.mk.injEq] at h
    obtain ⟨rfl, rfl⟩ := h
    exact ⟨id, id, fun m hm => by cases hm⟩
  | ReceiveTimeout =>
    simp only [ClusterGrain.HelloActor.Receive, Run.done.injEq, Prod.mk.injEq] at h
    obtain ⟨rfl, rfl⟩ := h
    exact ⟨id, id, fun m hm => by cases hm⟩
  | AutoReceiveMessage =>
    simp only [ClusterGrain.HelloActor.Receive, Run.done.injEq, Prod.mk.injEq] at h
    obtain ⟨rfl, rfl⟩ := h
    exact ⟨id, id, fun m hm => by cases hm⟩
  | SystemMessage =>
    simp only [ClusterGrain.HelloActor.Receive, Run.done.injEq, Prod.mk.injEq] at h
    obtain ⟨rfl, rfl⟩ := h
    exact ⟨id, id, fun m hm => by cases hm⟩
  | Stopped =>
    cases hi : a.inner with
    | none => simp [ClusterGrain.HelloActor.Receive, hi] at h
    | some s =>
      simp only [ClusterGrain.HelloActor.Receive, hi, Run.done.injEq, Prod.mk.injEq] at h
      obtain ⟨rfl, rfl⟩ := h
      exact ⟨fun _ => by simp, id, fun m hm => by cases hm⟩
  | other =>
    cases hi : a.inner with
    | none => simp [ClusterGrain.HelloActor.Receive, hi] at h
    | some s =>
      simp only [ClusterGrain.HelloActor.Receive, hi, Run.done.injEq, Prod.mk.injEq] at h
      obtain ⟨rfl, rfl⟩ := h
      exact ⟨fun _ => by simp, id, fun m hm => by cases hm⟩
  | ClusterInit p =>
    cases p with
    | none => simp [ClusterGrain.HelloActor.Receive] at h
    | some m =>
      cases factory with
      | none => simp [ClusterGrain.HelloActor.Receive] at h
      | some f =>
        cases hf : f () with
        | none => simp [ClusterGrain.HelloActor.Receive, hf] at h
        | some s0 =>
          by_cases ht : a.Timeout > 0
          · simp only [ClusterGrain.HelloActor.Receive, hf, ht, if_true, Run.done.injEq,
              Prod.mk.injEq] at h
            obtain ⟨rfl, rfl⟩ := h
            exact ⟨fun _ => by simp, fun _ => by simp, fun m hm => by cases hm⟩
          · simp only [ClusterGrain.HelloActor.Receive, hf, ht, if_false, Run.done.injEq,
              Prod.mk.injEq] at h
            obtain ⟨rfl, rfl⟩ := h
            exact ⟨fun _ => by simp, fun _ => by simp, fun m hm => by cases hm⟩
  | GrainRequest p =>
    cases p with
    | none => simp [ClusterGrain.HelloActor.Receive] at h
    | some m =>
      by_cases h0 : m.MethodIndex = 0
      · rcases hu : codec.Unmarshal m.MessageData with ⟨req, _ | err⟩
        · cases hi : a.inner with
          | none => simp [ClusterGrain.HelloActor.Receive, h0, hu, hi] at h
          | some s =>
            rcases hb : impl.SayHello s req a.ctx with ⟨s1, r0, err⟩
            cases err with
            | none =>
              simp only [ClusterGrain.HelloActor.Receive, h0, hu, hi, hb, if_true,
                Run.done.injEq, Prod.mk.injEq] at h
              obtain ⟨rfl, rfl⟩ := h
              refine ⟨fun _ => by simp, id, ?_⟩
              intro m2 hm2 hf
              cases hm2
              rcases hf with ⟨_, hd⟩ | ⟨s', hs', hr⟩
              · rw [hu] at hd; exact absurd rfl hd
              · cases hs'
                obtain ⟨_, hd⟩ := hr
                rw [hu] at hd
                simp only [ne_eq, not_true_eq_false, false_or, hb] at hd
            | some e =>
              simp only [ClusterGrain.HelloActor.Receive, h0, hu, hi, hb, if_true,
                Run.done.injEq, Prod.mk.injEq] at h
              obtain ⟨rfl, rfl⟩ := h
              exact ⟨fun _ => by simp, id,
                fun m2 _ _ => ⟨some { Err := e.Error }, List.mem_singleton_self _⟩⟩
        · simp only [ClusterGrain.HelloActor.Receive, h0, hu, if_true, Run.done.injEq,
            Prod.mk.injEq] at h
          obtain ⟨rfl, rfl⟩ := h
          exact ⟨id, id, fun m2 _ _ => ⟨_, List.mem_singleton_self _⟩⟩
      · simp only [ClusterGrain.HelloActor.Receive, h0, if_false, Run.done.injEq,
          Prod.mk.injEq] at h
        obtain ⟨rfl, rfl⟩ := h
        refine ⟨id, id, ?_⟩
        intro m2 hm2 hf
        cases hm2
        rcases hf with ⟨h0', _⟩ | ⟨s', _, hr⟩
        · exact absurd h0' h0
        · exact absurd hr.1 h0

/-- The other ways to a nil value, evaluated: a factory that returns nil, a nil
`*ClusterInit`, and, in testdata/reenter, an actor whose `inner` is set while `ctx` is
not (a state `Receive` never produces) when `SayHello` calls `respond` before it
returns. -/
theorem receive_panics_examples :
    Reenter.HelloActor.Receive sampleCluster (sampleCodec Reenter.GoError.other)
        (sampleCodec Reenter.GoError.other) sampleHello (some (fun _ => (none : Option Nat)))
        freshActor (Message.ClusterInit (some { Identity := "grain-1" }))
      = Run.panic "nil pointer dereference: a.inner.Init" ∧
    Reenter.HelloActor.Receive sampleCluster (sampleCodec Reenter.GoError.other)
        (sampleCodec Reenter.GoError.other) sampleHello sampleFactory freshActor
        (Message.ClusterInit none)
      = Run.panic "nil pointer dereference: msg.Identity" ∧
    Reenter.HelloActor.Receive sampleCluster (sampleCodec Reenter.GoError.other)
        (sampleCodec Reenter.GoError.other) sampleHello sampleFactory
        { ctx := none, inner := some 0, Timeout := 60 }
        (Message.GrainRequest (some { MethodIndex := 0, MessageData := [10, 2, 104, 105] }))
      = Run.panic "nil pointer dereference: ctx" := by
  refine ⟨?_, ?_, ?_⟩ <;> decide

/-- C14, amended. For every actor state, the initial one included, and every incoming
message, `Receive` of either generated file completes normally, without a panic or nil
dereference, except in exactly these cases: the message is a nil `*GrainRequest` or a
nil `*ClusterInit`; the message is a `ClusterInit` and `xHelloFactory` is unset or
returns nil; `inner` is unset and the message is `Stopped`, a message of the default
case, or a `GrainRequest` with a known index whose payload decodes; and, in
testdata/reenter only, `inner` is set while `ctx` is not (a state `Receive` never
produces) and `SayHello` calls one of its continuations before it returns. Whenever
`Receive` completes, a field `inner` or `ctx` that was set is still set, and every
failure of a request (a payload that does not decode, an error returned by the business
method) has been converted into an error response. -/
theorem receive_completes_iff_no_nil {S Q0 R0 Q1 R1 T Q R : Type}
    (cl : Reenter.ClusterPkg) (codec0 : Codec Reenter.GoError Q0)
    (codec1 : Codec Reenter.GoError Q1) (impl : Reenter.Hello S Q0 R0 Q1 R1)
    (factory : Option (Unit → Option S)) (a : Reenter.HelloActor S)
    (codec : Codec ClusterGrain.GoError Q) (implB : ClusterGrain.Hello T Q R)
    (factoryB : Option (Unit → Option T)) (b : ClusterGrain.HelloActor T)
    (msg : Message) :
    ((∃ a1 es, Reenter.HelloActor.Receive cl codec0 codec1 impl factory a msg
        = Run.done (a1, es)) ↔
      ¬ (msg = Message.GrainRequest none ∨
         msg = Message.ClusterInit none ∨
         (∃ m, msg = Message.ClusterInit (some m) ∧
           (factory = none ∨ ∃ f, factory = some f ∧ f () = none)) ∨
         (a.inner = none ∧
           (msg = Message.Stopped ∨ msg = Message.other ∨
            ∃ m, msg = Message.GrainRequest (some m) ∧
              ((m.MethodIndex = 0 ∧ (codec0.Unmarshal m.MessageData).2 = none) ∨
               (m.MethodIndex = 1 ∧ (codec1.Unmarshal m.MessageData).2 = none)))) ∨
         (∃ m s, msg = Message.GrainRequest (some m) ∧ a.inner = some s ∧ a.ctx = none ∧
            m.MethodIndex = 0 ∧ (codec0.Unmarshal m.MessageData).2 = none ∧
            (impl.SayHello s (codec0.Unmarshal m.MessageData).1 a.ctx).2.1 ≠ []))) ∧
    ((∃ b1 es, ClusterGrain.HelloActor.Receive codec implB factoryB b msg
        = Run.done (b1, es)) ↔
      ¬ (msg = Message.GrainRequest none ∨
         msg = Message.ClusterInit none ∨
         (∃ m, msg = Message.ClusterInit (some m) ∧
           (factoryB = none ∨ ∃ f, factoryB = some f ∧ f () = none)) ∨
         (b.inner = none ∧
           (msg = Message.Stopped ∨ msg = Message.other ∨
            ∃ m, msg = Message.GrainRequest (some m) ∧
              m.MethodIndex = 0 ∧ (codec.Unmarshal m.MessageData).2 = none)))) ∧
    (∀ a1 es, Reenter.HelloActor.Receive cl codec0 codec1 impl factory a msg
        = Run.done (a1, es) →
      (a.inner ≠ none → a1.inner ≠ none) ∧ (a.ctx ≠ none → a1.ctx ≠ none) ∧
      (∀ m, msg = Message.GrainRequest (some m) →
        ((m.MethodIndex = 0 ∧ (codec0.Unmarshal m.MessageData).2 ≠ none) ∨
         (m.MethodIndex = 1 ∧ (codec1.Unmarshal m.MessageData).2 ≠ none) ∨
         (∃ s, a.inner = some s ∧ Reenter.requestFails codec0 codec1 impl s a.ctx m)) →
        ∃ r, Reenter.Reply.GrainErrorResponse r ∈ Reenter.responses es)) ∧
    (∀ b1 es, ClusterGrain.HelloActor.Receive codec implB factoryB b msg
        = Run.done (b1, es) →
      (b.inner ≠ none → b1.inner ≠ none) ∧ (b.ctx ≠ none → b1.ctx ≠ none) ∧
      (∀ m, msg = Message.GrainRequest (some m) →
        ((m.MethodIndex = 0 ∧ (codec.Unmarshal m.MessageData).2 ≠ none) ∨
         (∃ t, b.inner = some t ∧ ClusterGrain.requestFails codec implB t b.ctx m)) →
        ∃ r, ClusterGrain.Reply.GrainErrorResponse r ∈ ClusterGrain.responses es)) :=
  ⟨Reenter.Receive_done_iff cl codec0 codec1 impl factory a msg,
   ClusterGrain.Receive_done_iff_blocking codec implB factoryB b msg,
   fun a1 es h => Reenter.Receive_done_effects cl codec0 codec1 impl factory a msg a1 es h,
   fun b1 es h =>
     ClusterGrain.Receive_done_effects_blocking codec implB factoryB b msg b1 es h⟩

/-- C14 amended, evaluated in the initial state: with a registered factory the fresh
sample actors handle `ClusterInit`, and the fresh reenter actor answers a request whose
payload is truncated with an error response. -/
theorem receive_completes_iff_no_nil_witness :
    (∃ a1 es, Reenter.HelloActor.Receive sampleCluster (sampleCodec Reenter.GoError.other)
        (sampleCodec Reenter.GoError.other) sampleHello sampleFactory freshActor
        (Message.ClusterInit (some { Identity := "grain-1" })) = Run.done (a1, es)) ∧
    (∃ b1 es, ClusterGrain.HelloActor.Receive (sampleCodec ClusterGrain.GoError.other)
        sampleHelloBlocking sampleFactory freshActorBlocking
        (Message.ClusterInit (some { Identity := "grain-1" })) = Run.done (b1, es)) ∧
    (∃ r, Reenter.Reply.GrainErrorResponse r ∈ Reenter.responses
        ([Reenter.Event.LogError "[Grain] SayHello(SayHelloRequest) proto.Unmarshal failed."
            (Reenter.GoError.other "proto: cannot parse invalid wire-format data"),
          Reenter.Event.Respond (Reenter.Reply.GrainErrorResponse (some
            { Reason := Reenter.ErrorReason.INVALID_ARGUMENT,
              Message := "proto: cannot parse invalid wire-format data",
              Metadata := [("argument", "")] }))] :
          List (Reenter.Event String String String String))) :=
  ⟨(receive_completes_iff_no_nil sampleCluster (sampleCodec Reenter.GoError.other)
      (sampleCodec Reenter.GoError.other) sampleHello sampleFactory freshActor
      (sampleCodec ClusterGrain.GoError.other) sampleHelloBlocking sampleFactory
      freshActorBlocking (Message.ClusterInit (some { Identity := "grain-1" }))).1.2
      (by simp [sampleFactory]),
   (receive_completes_iff_no_nil sampleCluster (sampleCodec Reenter.GoError.other)
      (sampleCodec Reenter.GoError.other) sampleHello sampleFactory freshActor
      (sampleCodec ClusterGrain.GoError.other) sampleHelloBlocking sampleFactory
      freshActorBlocking (Message.ClusterInit (some { Identity := "grain-1" }))).2.1.2
      (by simp [sampleFactory]),
   ((receive_completes_iff_no_nil sampleCluster (sampleCodec Reenter.GoError.other)
      (sampleCodec Reenter.GoError.other) sampleHello sampleFactory freshActor
      (sampleCodec ClusterGrain.GoError.other) sampleHelloBlocking sampleFactory
      freshActorBlocking
      (Message.GrainRequest (some { MethodIndex := 0, MessageData := [10, 9, 104, 105] }))).2.2.1
      freshActor _ (by decide)).2.2
      { MethodIndex := 0, MessageData := [10, 9, 104, 105] } rfl
      (Or.inl ⟨rfl, by decide⟩)⟩

/-- C15. Unknown method index is dropped silently: for a `GrainRequest` whose
`MethodIndex` is no case of the dispatch table (neither 0 nor 1 in testdata/reenter;
not 0 in examples/cluster-grain), `Receive` returns with the actor unchanged and
without any effect: no response, no business method, no hook, no log entry. This holds
in every state of the actor. -/
theorem unknown_index_dropped {S Q0 R0 Q1 R1 T Q R : Type}
    (cl : Reenter.ClusterPkg) (codec0 : Codec Reenter.GoError Q0)
    (codec1 : Codec Reenter.GoError Q1) (impl : Reenter.Hello S Q0 R0 Q1 R1)
    (factory : Option (Unit → Option S)) (a : Reenter.HelloActor S) (m : GrainRequest)
    (codec : Codec ClusterGrain.GoError Q) (implB : ClusterGrain.Hello T Q R)
    (factoryB : Option (Unit → Option T)) (b : ClusterGrain.HelloActor T) (n : GrainRequest)
    (hm : m.MethodIndex ≠ 0 ∧ m.MethodIndex ≠ 1) (hn : n.MethodIndex ≠ 0) :
    Reenter.HelloActor.Receive cl codec0 codec1 impl factory a (Message.GrainRequest (some m))
      = Run.done (a, []) ∧
    ClusterGrain.HelloActor.Receive codec implB factoryB b (Message.GrainRequest (some n))
      = Run.done (b, []) := by
  constructor
  · simp [Reenter.HelloActor.Receive, hm.1, hm.2]
  · simp [ClusterGrain.HelloActor.Receive, hn]

/-- C15, evaluated: index 2 (reenter) and index 1 (cluster-grain) on the initialised
sample actors. -/
theorem unknown_index_dropped_witness :
    Reenter.HelloActor.Receive sampleCluster (sampleCodec Reenter.GoError.other)
        (sampleCodec Reenter.GoError.other) sampleHello none sampleActor
        (Message.GrainRequest (some { MethodIndex := 2, MessageData := [10, 2, 104, 105] }))
      = Run.done (sampleActor, []) ∧
    ClusterGrain.HelloActor.Receive (sampleCodec ClusterGrain.GoError.other)
        sampleHelloBlocking none sampleActorBlocking
        (Message.GrainRequest (some { MethodIndex := 1, MessageData := [10, 2, 104, 105] }))
      = Run.done (sampleActorBlocking, []) :=
  unknown_index_dropped sampleCluster (sampleCodec Reenter.GoError.other)
    (sampleCodec Reenter.GoError.other) sampleHello none sampleActor
    { MethodIndex := 2, MessageData := [10, 2, 104, 105] }
    (sampleCodec ClusterGrain.GoError.other) sampleHelloBlocking none sampleActorBlocking
    { MethodIndex := 1, MessageData := [10, 2, 104, 105] }
    (by decide) (by decide)

end GrainGen
